import Mathlib

/-!
Verification of the hazard-classification and compliance-reconciliation core of
the `aplatquente` repository (files `quent2_plano.py`, `quent3_preenchimento.py`,
`quent4_epi.py`).  Python strings are modelled as lists of Unicode code points;
the Unicode character data consulted by `unicodedata` (canonical decompositions,
combining classes, general category Mn, simple uppercase mappings, whitespace)
is tabulated for the code points exercised by this program, with the identity /
zero / false defaults for all other code points.
-/

set_option maxRecDepth 100000

namespace Aplat

/-- Strings are modelled as lists of Unicode code points. -/
abbrev Str := List Nat

/-- Code points of a Lean string literal. -/
def strOf (s : String) : Str := s.toList.map Char.toNat

/-- Association-list lookup (a Python dict read `d.get(k)` / `d[k]`). -/
def alookup {α β : Type} [DecidableEq α] (k : α) : List (α × β) → Option β
  | [] => none
  | p :: r => if p.1 = k then some p.2 else alookup k r

/-- Python dict write `d[k] = v`: replace in place if the key exists
(keeping its position), else append. -/
def dictSet {α β : Type} [DecidableEq α] (d : List (α × β)) (k : α) (v : β) :
    List (α × β) :=
  match d with
  | [] => [(k, v)]
  | p :: r => if p.1 = k then (p.1, v) :: r else p :: dictSet r k v

/-- Python `set.add`: sets are modelled as lists without duplicate insertion;
all claims about them are membership statements. -/
def setAdd (s : List Str) (x : Str) : List Str := if x ∈ s then s else s ++ [x]

/-- Python `set.update` with an iterable of items. -/
def setUnion (s : List Str) (xs : List Str) : List Str := xs.foldl setAdd s

/-!  Unicode character data (`unicodedata` module), tabulated for the code
points used by this program.  `nfdTable` lists canonical (NFD) decompositions,
`cccTable` the nonzero canonical combining classes, `mnList` the code points of
general category Mn, `accTable` the simple uppercase mappings outside ASCII,
and `wsList` the code points matched by the regex class `\s` (which for Python
strings coincides with the set stripped by `str.strip`).  All other code points
default to: no decomposition, combining class 0, not Mn, identity uppercase,
not whitespace.  U+0E31 is a documented code point of category Mn whose
combining class is 0. -/

def nfdTable : List (Nat × List Nat) :=
  [(0xC0, [0x41, 0x300]), (0xC1, [0x41, 0x301]), (0xC2, [0x41, 0x302]),
   (0xC3, [0x41, 0x303]), (0xC7, [0x43, 0x327]), (0xC9, [0x45, 0x301]),
   (0xCA, [0x45, 0x302]), (0xCD, [0x49, 0x301]), (0xD3, [0x4F, 0x301]),
   (0xD5, [0x4F, 0x303]), (0xDA, [0x55, 0x301]), (0xE0, [0x61, 0x300]),
   (0xE1, [0x61, 0x301]), (0xE2, [0x61, 0x302]), (0xE3, [0x61, 0x303]),
   (0xE7, [0x63, 0x327]), (0xE9, [0x65, 0x301]), (0xEA, [0x65, 0x302]),
   (0xED, [0x69, 0x301]), (0xF3, [0x6F, 0x301]), (0xF5, [0x6F, 0x303]),
   (0xFA, [0x75, 0x301])]

/-- Canonical decomposition of one code point (`unicodedata.normalize("NFD")`
acting on a single character). -/
def nfd (c : Nat) : List Nat := (alookup c nfdTable).getD [c]

/-- `unicodedata.normalize("NFD", s)` on a whole string. -/
def nfdStr : Str → Str
  | [] => []
  | c :: r => nfd c ++ nfdStr r

def cccTable : List (Nat × Nat) :=
  [(0x300, 230), (0x301, 230), (0x302, 230), (0x303, 230), (0x327, 202)]

/-- `unicodedata.combining`: canonical combining class, 0 when unassigned. -/
def ccc (c : Nat) : Nat := (alookup c cccTable).getD 0

/-- Whether `unicodedata.category` returns `Mn` for this code point. -/
def isMn (c : Nat) : Bool :=
  c = 0x300 || c = 0x301 || c = 0x302 || c = 0x303 || c = 0x327 || c = 0xE31

def accTable : List (Nat × Nat) :=
  [(0xE0, 0xC0), (0xE1, 0xC1), (0xE2, 0xC2), (0xE3, 0xC3), (0xE7, 0xC7),
   (0xE9, 0xC9), (0xEA, 0xCA), (0xED, 0xCD), (0xF3, 0xD3), (0xF5, 0xD5),
   (0xFA, 0xDA)]

/-- `str.upper` on one code point. -/
def upperChar (c : Nat) : Nat :=
  if 97 ≤ c ∧ c ≤ 122 then c - 32 else (alookup c accTable).getD c

def wsList : List Nat :=
  [9, 10, 11, 12, 13, 0x1C, 0x1D, 0x1E, 0x1F, 32, 0x85, 0xA0, 0x1680,
   0x2000, 0x2001, 0x2002, 0x2003, 0x2004, 0x2005, 0x2006, 0x2007, 0x2008,
   0x2009, 0x200A, 0x2028, 0x2029, 0x202F, 0x205F, 0x3000]

/-- Membership in the regex class `\s` / the `str.strip` whitespace set. -/
def isWs (c : Nat) : Bool := c ∈ wsList

/-- `str.strip()`. -/
def stripWs (s : Str) : Str :=
  (((s.dropWhile isWs).reverse).dropWhile isWs).reverse

/-- Worker for `wordsOf`: `acc` is the current word, reversed. -/
def wordsRev (acc : Str) : Str → List Str
  | [] => if acc = [] then [] else [acc.reverse]
  | c :: r =>
    if isWs c then
      if acc = [] then wordsRev [] r else acc.reverse :: wordsRev [] r
    else wordsRev (c :: acc) r

/-- Maximal runs of non-whitespace characters, in order (`str.split()`). -/
def wordsOf (s : Str) : List Str := wordsRev [] s

/-- `re.sub(r"\s+", " ", s).strip()`: collapse whitespace runs to single
spaces and trim the ends. -/
def collapseWs (s : Str) : Str := List.intercalate [32] (wordsOf s)

/-- `quent2_plano.normalizar_texto`: NFD-decompose, drop the characters with a
nonzero combining class, upper-case, collapse whitespace, trim. -/
def normalizar_texto (s : Str) : Str :=
  if s = [] then []
  else collapseWs (((nfdStr s).filter (fun c => ccc c = 0)).map upperChar)

/-- `normalizar_texto` at an optional argument: `if not s` treats Python
`None` exactly like the empty string. -/
def normalizar_texto_opt (s : Option Str) : Str :=
  normalizar_texto (s.getD [])

/-- `quent3_preenchimento.normalizar_string`: NFD-decompose, drop the
characters of general category Mn, upper-case, collapse whitespace, trim.
(The source memoizes this with `lru_cache`; caching does not change the
value.) -/
def normalizar_string (s : Str) : Str :=
  if s = [] then []
  else collapseWs (((nfdStr s).filter (fun c => !isMn c)).map upperChar)

/-- `quent4_epi.normalizar_texto_epi`:
`' '.join(texto.split()).upper().strip()` (also `lru_cache`-memoized). -/
def normalizar_texto_epi (s : Str) : Str :=
  if s = [] then []
  else stripWs ((List.intercalate [32] (wordsOf s)).map upperChar)

/-- Bool test that `w` is an initial segment of `s`. -/
def listStarts : Str → Str → Bool
  | [], _ => true
  | _ :: _, [] => false
  | a :: as, b :: bs => a == b && listStarts as bs

/-- Python substring containment `w in s`. -/
def containsStr (w : Str) : Str → Bool
  | [] => w.isEmpty
  | c :: cs => listStarts w (c :: cs) || containsStr w cs

/-- The regex class `\w` restricted to the code points this program's
normalized texts can contain (ASCII word characters and Latin-1 letters). -/
def isWordChar (c : Nat) : Bool :=
  (48 ≤ c && c ≤ 57) || (65 ≤ c && c ≤ 90) || (97 ≤ c && c ≤ 122) ||
    c == 95 || (0xC0 ≤ c && c ≤ 0xFF && !(c == 0xD7) && !(c == 0xF7))

def wordBoundaryBefore (prev : Option Nat) : Bool :=
  match prev with
  | none => true
  | some c => !isWordChar c

def wordBoundaryAfter (rest : Str) : Bool :=
  match rest with
  | [] => true
  | c :: _ => !isWordChar c

def containsWordFrom (w : Str) (prev : Option Nat) : Str → Bool
  | [] => false
  | c :: cs =>
    (wordBoundaryBefore prev && listStarts w (c :: cs) &&
      wordBoundaryAfter (List.drop w.length (c :: cs)))
    || containsWordFrom w (some c) cs

/-- `re.search(r"\bW\b", s)` for a pattern `W` made of word characters. -/
def containsWord (w s : Str) : Bool := containsWordFrom w none s

/-- The hazard-context dictionary built by
`quent2_plano.montar_contexto_from_textos`; its fixed key set is modelled as a
structure of booleans plus the concatenated haystack. -/
structure Ctx where
  texto_full : Str
  tem_espaco_confinado : Bool
  tem_altura : Bool
  tem_acesso_cordas : Bool
  tem_sobre_o_mar : Bool
  tem_chama : Bool
  tem_oxicorte : Bool
  tem_solda : Bool
  tem_co2 : Bool
  tem_trat_mec : Bool
  tem_agulheiro : Bool
  tem_lix_pneum : Bool
  tem_lixadeira : Bool
  tem_pneumatico : Bool
  tem_eletrico : Bool
  tem_corte : Bool
  tem_serra_sabre : Bool
  tem_pressurizado : Bool
  tem_hidrojato : Bool
  tem_partes_moveis : Bool
  deriving DecidableEq

/-- `quent2_plano.montar_contexto_from_textos`. -/
def montar_contexto_from_textos (descricao caracteristicas : Str) : Ctx :=
  let desc := normalizar_texto descricao
  let carac := normalizar_texto caracteristicas
  let texto := stripWs (desc ++ [32] ++ carac)
  { texto_full := texto
    tem_espaco_confinado :=
      (containsStr (strOf "ESPACO CONFINADO") texto ||
       containsStr (strOf "INTERIOR DE ESPACO") texto ||
       containsStr (strOf "ESPACO CONFINADO -") texto ||
       containsStr (strOf "DENTRO DE") texto ||
       containsStr (strOf "INTERIOR DO") texto) ||
      containsStr (strOf "ESPACO CONFINADO") texto
    tem_altura :=
      (containsStr (strOf "ALTURA") texto ||
       containsStr (strOf "ACESSO POR CORDAS") texto ||
       containsStr (strOf "CORDAS") texto ||
       containsStr (strOf "NR-35") texto ||
       containsStr (strOf "TRABALHO EM ALTURA") texto) ||
      containsStr (strOf "ALTURA") texto
    tem_acesso_cordas := containsStr (strOf "ACESSO POR CORDAS") texto
    tem_sobre_o_mar := containsStr (strOf "SOBRE O MAR") texto
    tem_chama :=
      containsStr (strOf "CHAMA ABERTA") texto ||
      containsStr (strOf "ESMERILHADEIRA") texto ||
      containsStr (strOf "OXICORTE") texto ||
      containsStr (strOf "SOLDA") texto
    tem_oxicorte := containsStr (strOf "OXICORTE") texto
    tem_solda := containsWord (strOf "SOLDA") texto
    tem_co2 :=
      containsStr (strOf "AMBIENTES PROTEGIDOS POR CO2") texto ||
      containsStr (strOf "PROTEGIDO POR SISTEMA DE CO2") texto ||
      containsStr (strOf "PROTEGIDOS POR CO2") texto ||
      containsStr (strOf "PROTEGIDO POR CO2") texto
    tem_trat_mec := containsStr (strOf "TRATAMENTO MECANICO") texto
    tem_agulheiro := containsStr (strOf "AGULHEIRO") texto
    tem_lix_pneum := containsStr (strOf "LIXADEIRA PNEUMATIC") texto
    tem_lixadeira := containsStr (strOf "LIXADEIRA") texto
    tem_pneumatico := containsStr (strOf "PNEUMATIC") texto
    tem_eletrico := containsStr (strOf "ELETRIC") texto
    tem_corte := containsWord (strOf "CORTE") texto
    tem_serra_sabre := containsStr (strOf "SERRA SABRE") texto
    tem_pressurizado := containsStr (strOf "PRESSURIZADO") texto
    tem_hidrojato :=
      containsStr (strOf "HIDROJATO") texto ||
      containsStr (strOf "HIDROJATEAMENTO") texto
    tem_partes_moveis := containsStr (strOf "PARTES MOVEIS") texto }

/-! Base tables of `quent2_plano.py`.  Dicts are association lists (Python
dicts preserve insertion order); the category sets are lists whose claims are
all membership statements, so the unspecified iteration order of Python set
literals is immaterial. -/

def EPI_Q001_CINTO : Str × Str := (strOf "Q001", strOf "Cinto de Segurança")

def EPI_Q002_VENT : Str × Str := (strOf "Q002", strOf "Ventilação Forçada")

def EPI_Q003_COLETE : Str × Str := (strOf "Q003", strOf "Colete Salva-vidas")

def EPI_Q004_ILUM : Str × Str :=
  (strOf "Q004", strOf "Iluminação p/ uso em área classificada (tipo Ex)")

def EPI_Q005_DPA : Str × Str := (strOf "Q005", strOf "Dupla Proteção Auricular")

def EPI_Q006_PROT_FACIAL : Str × Str := (strOf "Q006", strOf "Protetor Facial")

def EPI_RADIOS_BASE : List ((Str × Str) × Str) :=
  [(EPI_Q001_CINTO, strOf "Não"), (EPI_Q002_VENT, strOf "Não"),
   (EPI_Q003_COLETE, strOf "Não"), (EPI_Q004_ILUM, strOf "Não"),
   (EPI_Q005_DPA, strOf "Sim"), (EPI_Q006_PROT_FACIAL, strOf "Sim")]

def EPIS_CAT_BASE : List (Str × List Str) :=
  [(strOf "Luvas",
    [strOf "LUVA DE PROTEÇÃO CONTRA IMPACTOS MODELO II (3, 4, 3, 3, 'C', 'P')"]),
   (strOf "Proteção Respiratória", [strOf "NÃO APLICÁVEL"]),
   (strOf "Vestimentas",
    [strOf "DUPLA PROTEÇÃO AUDITIVA",
     strOf "EPI´s OBRIGATÓRIOS (CAPACETE, BOTA, PROT. AURIC. E UNIFORME)"]),
   (strOf "Óculos", [strOf "ÓCULOS AMPLA VISÃO", strOf "PROTETOR FACIAL"])]

def QPT_Q001_MUDANCA : Str × Str :=
  (strOf "Q001",
   strOf "O trabalho a ser realizado é caracterizado como uma mudança?")

def QPT_Q001_PERMANENCIA : Str × Str :=
  (strOf "Q001", strOf "Permanência do Operador no Local de Trabalho?")

def QPT_Q002_ACOMP : Str × Str :=
  (strOf "Q002",
   strOf "Acompanhamento Periódico? (Em caso de Acompanhamento Periódico, efetuar verificações de ____em___horas)")

def QPT_Q002_MANOBRAS : Str × Str :=
  (strOf "Q002",
   strOf "As manobras, bloqueios e isolamentos foram executados conforme o plano de isolamento?")

def QPT_Q003_DRENADO : Str × Str :=
  (strOf "Q003",
   strOf "O equipamento foi drenado e/ou lavado e/ou limpo e/ou ventilado ?")

def QPT_Q004_SINALIZADO : Str × Str :=
  (strOf "Q004",
   strOf "O equipamento está corretamente sinalizado com etiquetas de advertência ?")

def QPT_Q005_INSPECOES : Str × Str :=
  (strOf "Q005",
   strOf "Foram realizadas inspeções prévias nos equipamentos elétricos (luminárias, quadros, painéis, conexões, cabos, etc) e os cabos elétricos estão supensos?")

def QPT_Q006_COMB_INC : Str × Str :=
  (strOf "Q006",
   strOf "Caso os sistemas e equipamentos de combate a incêndio do local onde será executado o trabalho não estejam em condições normais de operação, foram definidas salvaguardas?")

def QPT_Q007_MANG_AR : Str × Str :=
  (strOf "Q007",
   strOf "As mangueiras de ar comprimido possuem engates rápidos compatíveis e os mesmos estão travados")

def QPT_Q008_LOCAL_ISOLADO : Str × Str :=
  (strOf "Q008",
   strOf "O local foi isolado, sinalizado e o pessoal desnecessário  afastado ?")

def QPT_Q009_FAGULHAS : Str × Str :=
  (strOf "Q009",
   strOf "Foi providenciada a contenção de fagulhas com mantas e materiais adequados?")

def QPT_Q010_ACOPLADO : Str × Str :=
  (strOf "Q010",
   strOf "Caso o equipamento esteja acoplado a equipamento elétrico (ex: motor elétrico),  foram tomadas precauções quanto à energização acidental do equipamento ?")

def QPT_Q011_TAMPONAMENTOS : Str × Str :=
  (strOf "Q011",
   strOf "Foi providenciado Tamponamentos de drenos, ralos, vents e outras aberturas próximas ao local do trabalho?")

def QPT_Q012_RISCO_PP : Str × Str :=
  (strOf "Q012",
   strOf "A execução deste trabalho pode causar Risco de Perda de Produção?")

def QPT_Q013_INIBIR_SENSORES : Str × Str :=
  (strOf "Q013",
   strOf "Caso necessário inibir sensores do sistema de detecção de fogo e gás, foram definidas salvaguardas para suprir a inibição?")

def QPT_Q014_OBSERVADOR : Str × Str :=
  (strOf "Q014",
   strOf "O observador foi instruído quanto a utilização dos equipamentos de combate a incêndio?")

def QPT_BASE : List ((Str × Str) × Str) :=
  [(QPT_Q001_MUDANCA, strOf "Não"), (QPT_Q001_PERMANENCIA, strOf "Não"),
   (QPT_Q002_ACOMP, strOf "Sim"), (QPT_Q002_MANOBRAS, strOf "NA"),
   (QPT_Q003_DRENADO, strOf "NA"), (QPT_Q004_SINALIZADO, strOf "NA"),
   (QPT_Q005_INSPECOES, strOf "NA"), (QPT_Q006_COMB_INC, strOf "NA"),
   (QPT_Q007_MANG_AR, strOf "NA"), (QPT_Q008_LOCAL_ISOLADO, strOf "Sim"),
   (QPT_Q009_FAGULHAS, strOf "NA"), (QPT_Q010_ACOPLADO, strOf "NA"),
   (QPT_Q011_TAMPONAMENTOS, strOf "NA"), (QPT_Q012_RISCO_PP, strOf "Não"),
   (QPT_Q013_INIBIR_SENSORES, strOf "NA"), (QPT_Q014_OBSERVADOR, strOf "NA")]

/-- `quent2_plano.montar_base_epi_radios` (the `dict(...)` copy of the base is
value semantics here; the heap-level model below accounts for the copy). -/
def montar_base_epi_radios (ctx : Ctx) : List ((Str × Str) × Str) :=
  let base := EPI_RADIOS_BASE
  let base :=
    if ctx.tem_altura || ctx.tem_acesso_cordas || ctx.tem_sobre_o_mar then
      dictSet base EPI_Q001_CINTO (strOf "Sim")
    else base
  let base :=
    if ctx.tem_sobre_o_mar then dictSet base EPI_Q003_COLETE (strOf "Sim")
    else base
  let hazard_olhos :=
    ctx.tem_chama || ctx.tem_trat_mec || ctx.tem_agulheiro ||
      ctx.tem_lix_pneum || ctx.tem_lixadeira || ctx.tem_corte ||
      ctx.tem_serra_sabre
  dictSet base EPI_Q006_PROT_FACIAL
    (if hazard_olhos then strOf "Sim" else strOf "Não")

/-- Python `base.setdefault(k, set()).update(xs)`. -/
def dictUpdateSet (d : List (Str × List Str)) (k : Str) (xs : List Str) :
    List (Str × List Str) :=
  match alookup k d with
  | some s => dictSet d k (setUnion s xs)
  | none => d ++ [(k, setUnion [] xs)]

/-- Python `base.setdefault(k, set()).add(x)`. -/
def dictAddSet (d : List (Str × List Str)) (k : Str) (x : Str) :
    List (Str × List Str) :=
  match alookup k d with
  | some s => dictSet d k (setAdd s x)
  | none => d ++ [(k, setAdd [] x)]

/-- `quent2_plano.montar_base_epis_cat`. -/
def montar_base_epis_cat (ctx : Ctx) : List (Str × List Str) :=
  let base := EPIS_CAT_BASE
  let hazard_olhos :=
    ctx.tem_chama || ctx.tem_trat_mec || ctx.tem_agulheiro ||
      ctx.tem_lix_pneum || ctx.tem_lixadeira || ctx.tem_corte ||
      ctx.tem_serra_sabre
  let base :=
    if !hazard_olhos then
      dictSet base (strOf "Óculos") [strOf "ÓCULOS SEGURANÇA CONTRA IMPACTO"]
    else base
  let base :=
    if ctx.tem_chama then
      let base := dictUpdateSet base (strOf "Luvas")
        [strOf "LUVA ARAMIDA", strOf "LUVA DE RASPA"]
      let base := dictUpdateSet base (strOf "Vestimentas")
        [strOf "BALACLAVA", strOf "AVENTAL DE RASPA", strOf "CAPUZ",
         strOf "MANGA DE RASPA", strOf "PERNEIRA DE RASPA",
         strOf "VESTIM. COMPLETA DE RASPA"]
      let base := dictSet base (strOf "Proteção Respiratória")
        [strOf "PEÇA SEMI-FACIAL FILTRANTE 2"]
      dictAddSet base (strOf "Óculos") (strOf "MÁSCARA SOLDADOR")
    else base
  let base :=
    if ctx.tem_solda || ctx.tem_oxicorte then
      dictAddSet base (strOf "Óculos")
        (strOf "LENTE DE ACORDO COM AMPERAGEM DA MÁQUINA")
    else base
  let base :=
    if ctx.tem_oxicorte then
      dictAddSet base (strOf "Óculos") (strOf "ÓCULOS MAÇARIQUEIRO")
    else base
  let base :=
    if ctx.tem_trat_mec || ctx.tem_agulheiro || ctx.tem_lix_pneum then
      let base := dictSet base (strOf "Proteção Respiratória")
        [strOf "PEÇA SEMI-FACIAL FILTRANTE 2"]
      dictAddSet base (strOf "Luvas") (strOf "LUVA ANTI-VIBRAÇÃO")
    else base
  let base :=
    if ctx.tem_altura || ctx.tem_acesso_cordas then
      dictUpdateSet base (strOf "Vestimentas")
        [strOf "BOTA CANO ALTO",
         strOf "CAPACETE S/ABAS C/ CARNEIRA E PRESILHA DE QUEIXO EM Y",
         strOf "CINTO DE SEG. TP PARA-QUEDISTA",
         strOf "CINTO DE SEGURANÇA PARA RESGATE",
         strOf "DUPLO TALABARTE EM Y OU LINHA DE VIDA CONJUGADA TRAVA QUEDA",
         strOf "MACACÃO COM GOLA TIPO PADRE E BOLSOS FECHADOS"]
    else base
  let base :=
    if ctx.tem_sobre_o_mar then
      dictUpdateSet base (strOf "Vestimentas")
        [strOf "BOTA CANO ALTO",
         strOf "CAPACETE S/ABAS C/ CARNEIRA E PRESILHA DE QUEIXO EM Y",
         strOf "CINTO DE SEG. TP PARA-QUEDISTA",
         strOf "CINTO DE SEGURANÇA PARA RESGATE",
         strOf "COLETE SALVA VIDAS RF (apenas para trabalhos a quente)",
         strOf "COLETE SALVA-VIDAS",
         strOf "DUPLO TALABARTE EM Y OU LINHA DE VIDA CONJUGADA TRAVA QUEDA",
         strOf "MACACÃO COM GOLA TIPO PADRE E BOLSOS FECHADOS"]
    else base
  base

/-- `quent2_plano.montar_base_qpt`. -/
def montar_base_qpt (ctx : Ctx) : List ((Str × Str) × Str) :=
  let base := QPT_BASE
  let base :=
    if ctx.tem_chama || ctx.tem_eletrico then
      dictSet base QPT_Q005_INSPECOES (strOf "Sim")
    else dictSet base QPT_Q005_INSPECOES (strOf "NA")
  let base :=
    if ctx.tem_pneumatico || ctx.tem_trat_mec || ctx.tem_agulheiro ||
        ctx.tem_lix_pneum then
      dictSet base QPT_Q007_MANG_AR (strOf "Sim")
    else dictSet base QPT_Q007_MANG_AR (strOf "NA")
  let base :=
    if ctx.tem_chama then dictSet base QPT_Q009_FAGULHAS (strOf "Sim")
    else dictSet base QPT_Q009_FAGULHAS (strOf "NA")
  let base :=
    if ctx.tem_chama then dictSet base QPT_Q011_TAMPONAMENTOS (strOf "Sim")
    else dictSet base QPT_Q011_TAMPONAMENTOS (strOf "NA")
  let base :=
    if ctx.tem_co2 && ctx.tem_chama then
      dictSet base QPT_Q013_INIBIR_SENSORES (strOf "Sim")
    else dictSet base QPT_Q013_INIBIR_SENSORES (strOf "NA")
  let base :=
    if ctx.tem_chama then dictSet base QPT_Q014_OBSERVADOR (strOf "Sim")
    else dictSet base QPT_Q014_OBSERVADOR (strOf "NA")
  base

/-- Code `f"Q{num:03d}"` for `num ≤ 999`. -/
def apnCode (num : Nat) : Str :=
  [81, 48 + num / 100 % 10, 48 + num / 10 % 10, 48 + num % 10]

/-- `quent2_plano.montar_base_apn1`. -/
def montar_base_apn1 (ctx : Ctx) : List (Str × Str) :=
  let base := (List.range 20).map (fun i => (apnCode (i + 1), strOf "Não"))
  let base :=
    if ctx.tem_espaco_confinado then dictSet base (strOf "Q006") (strOf "Sim")
    else base
  let base :=
    if ctx.tem_altura || ctx.tem_acesso_cordas then
      dictSet base (strOf "Q007") (strOf "Sim")
    else base
  let base :=
    if ctx.tem_sobre_o_mar then dictSet base (strOf "Q008") (strOf "Sim")
    else base
  let base :=
    if ctx.tem_chama then dictSet base (strOf "Q010") (strOf "Sim") else base
  let base :=
    if ctx.tem_co2 then dictSet base (strOf "Q019") (strOf "Sim") else base
  let base :=
    if ctx.tem_pressurizado then dictSet base (strOf "Q013") (strOf "Sim")
    else base
  let base :=
    if ctx.tem_hidrojato then dictSet base (strOf "Q016") (strOf "Sim")
    else base
  let base :=
    if ctx.tem_partes_moveis then dictSet base (strOf "Q017") (strOf "Sim")
    else base
  base

/-- The plan value returned by `quent2_plano.gerar_plano_trabalho_quente`. -/
structure Plano where
  contexto : Ctx
  epi_radios : List ((Str × Str) × Str)
  epis_cat : List (Str × List Str)
  qpt : List ((Str × Str) × Str)
  apn1 : List (Str × Str)
  analise_ambiental : Str

/-- `quent2_plano.gerar_plano_trabalho_quente`. -/
def gerar_plano_trabalho_quente (descricao caracteristicas : Str) : Plano :=
  let ctx := montar_contexto_from_textos descricao caracteristicas
  { contexto := ctx
    epi_radios := montar_base_epi_radios ctx
    epis_cat := montar_base_epis_cat ctx
    qpt := montar_base_qpt ctx
    apn1 := montar_base_apn1 ctx
    analise_ambiental :=
      strOf "Todas as questões devem ser respondidas com 'Não' (regra fixa)." }

/-- Read one category's item set from a category dict (`base[cat]`, with `[]`
for a missing category). -/
def getCat (d : List (Str × List Str)) (k : Str) : List Str :=
  (alookup k d).getD []

/-- The composite eye-hazard flag computed (identically) inside
`montar_base_epi_radios` and `montar_base_epis_cat`. -/
def hazard_olhos (ctx : Ctx) : Bool :=
  ctx.tem_chama || ctx.tem_trat_mec || ctx.tem_agulheiro ||
    ctx.tem_lix_pneum || ctx.tem_lixadeira || ctx.tem_corte ||
    ctx.tem_serra_sabre

/-- Pointwise order on hazard contexts: every flag true in `c1` is true in
`c2` ("adding more true flags"). -/
def ctxLE (c1 c2 : Ctx) : Prop :=
  (c1.tem_espaco_confinado = true → c2.tem_espaco_confinado = true) ∧
  (c1.tem_altura = true → c2.tem_altura = true) ∧
  (c1.tem_acesso_cordas = true → c2.tem_acesso_cordas = true) ∧
  (c1.tem_sobre_o_mar = true → c2.tem_sobre_o_mar = true) ∧
  (c1.tem_chama = true → c2.tem_chama = true) ∧
  (c1.tem_oxicorte = true → c2.tem_oxicorte = true) ∧
  (c1.tem_solda = true → c2.tem_solda = true) ∧
  (c1.tem_co2 = true → c2.tem_co2 = true) ∧
  (c1.tem_trat_mec = true → c2.tem_trat_mec = true) ∧
  (c1.tem_agulheiro = true → c2.tem_agulheiro = true) ∧
  (c1.tem_lix_pneum = true → c2.tem_lix_pneum = true) ∧
  (c1.tem_lixadeira = true → c2.tem_lixadeira = true) ∧
  (c1.tem_pneumatico = true → c2.tem_pneumatico = true) ∧
  (c1.tem_eletrico = true → c2.tem_eletrico = true) ∧
  (c1.tem_corte = true → c2.tem_corte = true) ∧
  (c1.tem_serra_sabre = true → c2.tem_serra_sabre = true) ∧
  (c1.tem_pressurizado = true → c2.tem_pressurizado = true) ∧
  (c1.tem_hidrojato = true → c2.tem_hidrojato = true) ∧
  (c1.tem_partes_moveis = true → c2.tem_partes_moveis = true)

/-! `quent4_epi.py`: comparison of the planned equipment sets with the items
observed in each live category, and the actions taken. -/

/-- `ResultadoComparacao`. -/
structure ResultadoComparacao where
  faltantes : List Str
  excedentes : List Str
  deriving DecidableEq

/-- `EPIProcessor._comparar_com_plano`: plain set subtraction
`esperados - atuais` / `atuais - esperados` (membership tests are exact
string equality; no normalization is applied here). -/
def comparar_com_plano (esperados itens_atuais : List Str) :
    ResultadoComparacao :=
  { faltantes := esperados.filter (fun x => !decide (x ∈ itens_atuais))
    excedentes := itens_atuais.filter (fun x => !decide (x ∈ esperados)) }

/-- Actions the EPI processor can drive through the UI boundary.  The removal
constructor models `_remover_itens_excedentes`, which exists in the source but
whose only call site is commented out. -/
inductive EPIAction where
  | addItem (item : Str)
  | removeItem (item : Str)
  deriving DecidableEq

/-- Decision core of `EPIProcessor._processar_categoria`: which actions are
produced for one category given the plan and the currently observed items
(`_incluir_itens_faltantes` adds each missing item; the excess items are only
logged). -/
def processar_categoria (categoria : Str) (plano : List (Str × List Str))
    (itens_atuais : List Str) : List EPIAction :=
  let esperados := (alookup categoria plano).getD []
  let resultado := comparar_com_plano esperados itens_atuais
  resultado.faltantes.map EPIAction.addItem

/-- The missing set as claim C3 words it (case/whitespace-normalized
comparison, reported items keeping their original casing); stated from the
spec only, for comparison against `comparar_com_plano`. -/
def faltantes_spec_normalizado (esperados itens_atuais : List Str) :
    List Str :=
  esperados.filter (fun e =>
    !(itens_atuais.any (fun o =>
        normalizar_texto_epi o == normalizar_texto_epi e)))

/-! `quent3_preenchimento.py`: question resolution and label matching. -/

/-- `extrair_digitos_codigo`: keep the (ASCII) digits, zero-pad to width 3;
empty input or no digits yields the empty string. -/
def extrair_digitos_codigo (codigo : Str) : Str :=
  let digitos := codigo.filter (fun c => 48 ≤ c && c ≤ 57)
  if digitos = [] then []
  else if 3 ≤ digitos.length then digitos
  else List.replicate (3 - digitos.length) 48 ++ digitos

/-- One entry of the question map built by `_extrair_info_pergunta`; `idx` is
the position of the rendered row in document order and models the row object
held in the Python dict. -/
structure QInfo where
  idx : Nat
  ordem : Str
  texto : Str
  cod_norm : Str
  texto_norm : Str
  deriving DecidableEq

/-- `QuestionarioPTProcessor._extrair_info_pergunta` applied to one rendered
row, given as its `(ordem, pergunta)` texts. -/
def extrair_info_pergunta (idx : Nat) (row : Str × Str) : Option QInfo :=
  let cod_norm := extrair_digitos_codigo row.1
  let texto_norm := normalizar_string row.2
  if texto_norm = [] then none
  else some ⟨idx, stripWs row.1, stripWs row.2, cod_norm, texto_norm⟩

/-- `defaultdict(list)` append used for `mapa_texto`. -/
def dictAppendQ (d : List (Str × List QInfo)) (k : Str) (i : QInfo) :
    List (Str × List QInfo) :=
  match alookup k d with
  | some l => dictSet d k (l ++ [i])
  | none => d ++ [(k, [i])]

/-- One loop iteration of `_construir_mapa_perguntas`. -/
def mapaStep (m : List ((Str × Str) × QInfo) × List (Str × List QInfo))
    (p : Nat × (Str × Str)) :
    List ((Str × Str) × QInfo) × List (Str × List QInfo) :=
  match extrair_info_pergunta p.1 p.2 with
  | none => m
  | some info =>
    (dictSet m.1 (info.cod_norm, info.texto_norm) info,
     dictAppendQ m.2 info.texto_norm info)

/-- `QuestionarioPTProcessor._construir_mapa_perguntas`: the
`(cod_norm, texto_norm)`-keyed dict (later rows overwrite earlier ones) and
the `texto_norm`-keyed multimap (rows appended in document order). -/
def construir_mapa_perguntas (rows : List (Str × Str)) :
    List ((Str × Str) × QInfo) × List (Str × List QInfo) :=
  rows.enum.foldl mapaStep ([], [])

/-- The question infos of the rendered rows, in document order. -/
def infosOf (rows : List (Str × Str)) : List QInfo :=
  rows.enum.filterMap (fun p => extrair_info_pergunta p.1 p.2)

/-- `QuestionarioPTProcessor._encontrar_questao`; the boolean records whether
the multiple-candidates warning is printed. -/
def encontrar_questao (rows : List (Str × Str)) (codigo texto : Str) :
    Option QInfo × Bool :=
  let maps := construir_mapa_perguntas rows
  let cod_norm := extrair_digitos_codigo codigo
  let texto_norm := normalizar_string texto
  let exact :=
    if maps.1 ≠ [] then alookup (cod_norm, texto_norm) maps.1 else none
  match exact with
  | some info => (some info, false)
  | none =>
    match alookup texto_norm maps.2 with
    | some candidatos =>
      match candidatos with
      | [] => (none, false)
      | c :: rest => (some c, decide (rest ≠ []))
    | none => (none, false)

def possiveis_na : List Str :=
  [strOf "NA", strOf "N/A", strOf "NAO APLICAVEL", strOf "NAO SE APLICA",
   strOf "NAO SE APLICAR", strOf "NAO APLICAVEL AO TRABALHO",
   strOf "NAO SE APLICA AO TRABALHO"]

/-- `QuestionarioPTProcessor._texto_label_corresponde`. -/
def texto_label_corresponde (texto_label alvo : Str) : Bool :=
  let texto_label_norm := normalizar_string texto_label
  let alvo_norm := normalizar_string alvo
  if alvo_norm = strOf "NA" ∨ alvo_norm = strOf "N/A" then
    if texto_label_norm ∈ possiveis_na then true
    else if containsStr (strOf "NAO SE APLICA") texto_label_norm ||
        containsStr (strOf "NAO APLICAVEL") texto_label_norm then true
    else false
  else if alvo_norm = strOf "SIM" then
    decide (texto_label_norm = strOf "SIM")
  else if alvo_norm = strOf "NAO" ∨ alvo_norm = strOf "NÃO" then
    decide (texto_label_norm = strOf "NAO") ||
      decide (texto_label_norm = strOf "NÃO")
  else decide (texto_label_norm = alvo_norm)

/-! Heap model, for the frame claim C10.  Mutable Python objects are cells of
an explicit heap (a list addressed by position); allocation appends a fresh
cell.  Each builder starts by copying the module-level table into a fresh cell
(`dict(...)` / the `set(itens)` comprehension) and then mutates only the
copies, so the theorems can show every pre-existing cell unchanged. -/

def hRead {α : Type} (h : List α) (a : Nat) (d : α) : α := (h.get? a).getD d

def hWrite {α : Type} : List α → Nat → (α → α) → List α
  | [], _, _ => []
  | x :: r, 0, f => f x :: r
  | x :: r, n + 1, f => x :: hWrite r n f

/-- `montar_base_epi_radios` acting on a heap of dict objects; `g` is the
address of the module-level `EPI_RADIOS_BASE`.  Returns the heap and the
address of the result. -/
def montar_base_epi_radios_heap (ctx : Ctx) (g : Nat)
    (h : List (List ((Str × Str) × Str))) :
    List (List ((Str × Str) × Str)) × Nat :=
  let b := h.length
  let h := h ++ [hRead h g []]
  let h :=
    if ctx.tem_altura || ctx.tem_acesso_cordas || ctx.tem_sobre_o_mar then
      hWrite h b (fun d => dictSet d EPI_Q001_CINTO (strOf "Sim"))
    else h
  let h :=
    if ctx.tem_sobre_o_mar then
      hWrite h b (fun d => dictSet d EPI_Q003_COLETE (strOf "Sim"))
    else h
  let hazard_olhos :=
    ctx.tem_chama || ctx.tem_trat_mec || ctx.tem_agulheiro ||
      ctx.tem_lix_pneum || ctx.tem_lixadeira || ctx.tem_corte ||
      ctx.tem_serra_sabre
  let h := hWrite h b (fun d =>
    dictSet d EPI_Q006_PROT_FACIAL
      (if hazard_olhos then strOf "Sim" else strOf "Não"))
  (h, b)

/-- `montar_base_qpt` acting on a heap of dict objects; `g` is the address of
the module-level `QPT_BASE`. -/
def montar_base_qpt_heap (ctx : Ctx) (g : Nat)
    (h : List (List ((Str × Str) × Str))) :
    List (List ((Str × Str) × Str)) × Nat :=
  let b := h.length
  let h := h ++ [hRead h g []]
  let h :=
    if ctx.tem_chama || ctx.tem_eletrico then
      hWrite h b (fun d => dictSet d QPT_Q005_INSPECOES (strOf "Sim"))
    else hWrite h b (fun d => dictSet d QPT_Q005_INSPECOES (strOf "NA"))
  let h :=
    if ctx.tem_pneumatico || ctx.tem_trat_mec || ctx.tem_agulheiro ||
        ctx.tem_lix_pneum then
      hWrite h b (fun d => dictSet d QPT_Q007_MANG_AR (strOf "Sim"))
    else hWrite h b (fun d => dictSet d QPT_Q007_MANG_AR (strOf "NA"))
  let h :=
    if ctx.tem_chama then
      hWrite h b (fun d => dictSet d QPT_Q009_FAGULHAS (strOf "Sim"))
    else hWrite h b (fun d => dictSet d QPT_Q009_FAGULHAS (strOf "NA"))
  let h :=
    if ctx.tem_chama then
      hWrite h b (fun d => dictSet d QPT_Q011_TAMPONAMENTOS (strOf "Sim"))
    else hWrite h b (fun d => dictSet d QPT_Q011_TAMPONAMENTOS (strOf "NA"))
  let h :=
    if ctx.tem_co2 && ctx.tem_chama then
      hWrite h b (fun d => dictSet d QPT_Q013_INIBIR_SENSORES (strOf "Sim"))
    else hWrite h b (fun d => dictSet d QPT_Q013_INIBIR_SENSORES (strOf "NA"))
  let h :=
    if ctx.tem_chama then
      hWrite h b (fun d => dictSet d QPT_Q014_OBSERVADOR (strOf "Sim"))
    else hWrite h b (fun d => dictSet d QPT_Q014_OBSERVADOR (strOf "NA"))
  (h, b)

/-- `montar_base_apn1` acting on a heap of dict objects (it reads no
module-level table). -/
def montar_base_apn1_heap (ctx : Ctx) (h : List (List (Str × Str))) :
    List (List (Str × Str)) × Nat :=
  let b := h.length
  let h := h ++ [(List.range 20).map (fun i => (apnCode (i + 1), strOf "Não"))]
  let h :=
    if ctx.tem_espaco_confinado then
      hWrite h b (fun d => dictSet d (strOf "Q006") (strOf "Sim"))
    else h
  let h :=
    if ctx.tem_altura || ctx.tem_acesso_cordas then
      hWrite h b (fun d => dictSet d (strOf "Q007") (strOf "Sim"))
    else h
  let h :=
    if ctx.tem_sobre_o_mar then
      hWrite h b (fun d => dictSet d (strOf "Q008") (strOf "Sim"))
    else h
  let h :=
    if ctx.tem_chama then
      hWrite h b (fun d => dictSet d (strOf "Q010") (strOf "Sim"))
    else h
  let h :=
    if ctx.tem_co2 then
      hWrite h b (fun d => dictSet d (strOf "Q019") (strOf "Sim"))
    else h
  let h :=
    if ctx.tem_pressurizado then
      hWrite h b (fun d => dictSet d (strOf "Q013") (strOf "Sim"))
    else h
  let h :=
    if ctx.tem_hidrojato then
      hWrite h b (fun d => dictSet d (strOf "Q016") (strOf "Sim"))
    else h
  let h :=
    if ctx.tem_partes_moveis then
      hWrite h b (fun d => dictSet d (strOf "Q017") (strOf "Sim"))
    else h
  (h, b)

/-- The three kinds of category-dict mutations `montar_base_epis_cat`
performs: `base[k] = {…}`, `base.setdefault(k, set()).update({…})` and
`base.setdefault(k, set()).add(x)`. -/
inductive CatStep where
  | assignK (k : Str) (v : List Str)
  | updateK (k : Str) (xs : List Str)
  | addK (k : Str) (x : Str)
  deriving DecidableEq

def runCatStepPure (d : List (Str × List Str)) : CatStep →
    List (Str × List Str)
  | .assignK k v => dictSet d k v
  | .updateK k xs => dictUpdateSet d k xs
  | .addK k x => dictAddSet d k x

/-- State of the heap-level category builder: the heap of set objects and the
local `base` dict mapping category names to set addresses. -/
abbrev CatSt := List (List Str) × List (Str × Nat)

def runCatStepHeap (st : CatSt) : CatStep → CatSt
  | .assignK k v => (st.1 ++ [v], dictSet st.2 k st.1.length)
  | .updateK k xs =>
    match alookup k st.2 with
    | some a => (hWrite st.1 a (fun s => setUnion s xs), st.2)
    | none => (st.1 ++ [setUnion [] xs], st.2 ++ [(k, st.1.length)])
  | .addK k x =>
    match alookup k st.2 with
    | some a => (hWrite st.1 a (fun s => setAdd s x), st.2)
    | none => (st.1 ++ [setAdd [] x], st.2 ++ [(k, st.1.length)])

/-- The sequence of mutations `montar_base_epis_cat` performs for a given
context, in source order. -/
def catProgram (ctx : Ctx) : List CatStep :=
  let hazard_olhos :=
    ctx.tem_chama || ctx.tem_trat_mec || ctx.tem_agulheiro ||
      ctx.tem_lix_pneum || ctx.tem_lixadeira || ctx.tem_corte ||
      ctx.tem_serra_sabre
  (if !hazard_olhos then
    [CatStep.assignK (strOf "Óculos")
      [strOf "ÓCULOS SEGURANÇA CONTRA IMPACTO"]]
  else []) ++
  (if ctx.tem_chama then
    [CatStep.updateK (strOf "Luvas")
      [strOf "LUVA ARAMIDA", strOf "LUVA DE RASPA"],
     CatStep.updateK (strOf "Vestimentas")
      [strOf "BALACLAVA", strOf "AVENTAL DE RASPA", strOf "CAPUZ",
       strOf "MANGA DE RASPA", strOf "PERNEIRA DE RASPA",
       strOf "VESTIM. COMPLETA DE RASPA"],
     CatStep.assignK (strOf "Proteção Respiratória")
      [strOf "PEÇA SEMI-FACIAL FILTRANTE 2"],
     CatStep.addK (strOf "Óculos") (strOf "MÁSCARA SOLDADOR")]
  else []) ++
  (if ctx.tem_solda || ctx.tem_oxicorte then
    [CatStep.addK (strOf "Óculos")
      (strOf "LENTE DE ACORDO COM AMPERAGEM DA MÁQUINA")]
  else []) ++
  (if ctx.tem_oxicorte then
    [CatStep.addK (strOf "Óculos") (strOf "ÓCULOS MAÇARIQUEIRO")]
  else []) ++
  (if ctx.tem_trat_mec || ctx.tem_agulheiro || ctx.tem_lix_pneum then
    [CatStep.assignK (strOf "Proteção Respiratória")
      [strOf "PEÇA SEMI-FACIAL FILTRANTE 2"],
     CatStep.addK (strOf "Luvas") (strOf "LUVA ANTI-VIBRAÇÃO")]
  else []) ++
  (if ctx.tem_altura || ctx.tem_acesso_cordas then
    [CatStep.updateK (strOf "Vestimentas")
      [strOf "BOTA CANO ALTO",
       strOf "CAPACETE S/ABAS C/ CARNEIRA E PRESILHA DE QUEIXO EM Y",
       strOf "CINTO DE SEG. TP PARA-QUEDISTA",
       strOf "CINTO DE SEGURANÇA PARA RESGATE",
       strOf "DUPLO TALABARTE EM Y OU LINHA DE VIDA CONJUGADA TRAVA QUEDA",
       strOf "MACACÃO COM GOLA TIPO PADRE E BOLSOS FECHADOS"]]
  else []) ++
  (if ctx.tem_sobre_o_mar then
    [CatStep.updateK (strOf "Vestimentas")
      [strOf "BOTA CANO ALTO",
       strOf "CAPACETE S/ABAS C/ CARNEIRA E PRESILHA DE QUEIXO EM Y",
       strOf "CINTO DE SEG. TP PARA-QUEDISTA",
       strOf "CINTO DE SEGURANÇA PARA RESGATE",
       strOf "COLETE SALVA VIDAS RF (apenas para trabalhos a quente)",
       strOf "COLETE SALVA-VIDAS",
       strOf "DUPLO TALABARTE EM Y OU LINHA DE VIDA CONJUGADA TRAVA QUEDA",
       strOf "MACACÃO COM GOLA TIPO PADRE E BOLSOS FECHADOS"]]
  else [])

/-- Copy one category's set into a fresh cell
(`cat: set(itens)` inside the dict comprehension). -/
def copyStep (st : CatSt) (p : Str × Nat) : CatSt :=
  (st.1 ++ [hRead st.1 p.2 []], st.2 ++ [(p.1, st.1.length)])

/-- `base = {cat: set(itens) for cat, itens in EPIS_CAT_BASE.items()}`:
allocate a fresh copy of every category set of the global dict at address
content `g`. -/
def copyCats (h : List (List Str)) (g : List (Str × Nat)) : CatSt :=
  g.foldl copyStep (h, [])

/-- `montar_base_epis_cat` acting on a heap of set objects; `g` is the content
of the module-level `EPIS_CAT_BASE` dict (category name → set address). -/
def montar_base_epis_cat_heap (ctx : Ctx) (g : List (Str × Nat))
    (h : List (List Str)) : CatSt :=
  (catProgram ctx).foldl runCatStepHeap (copyCats h g)

/-- Read a category dict's contents out of the heap. -/
def catContents (h : List (List Str)) (g : List (Str × Nat)) :
    List (Str × List Str) :=
  g.map (fun p => (p.1, hRead h p.2 []))

/-- Invariant of the category-builder state over an initial heap `h0`: the
first `n0` cells are untouched, the local dict points only at fresh,
in-bounds, pairwise-distinct cells. -/
def CatInv (n0 : Nat) (h0 : List (List Str)) (st : CatSt) : Prop :=
  (∀ a, a < n0 → st.1.get? a = h0.get? a) ∧ n0 ≤ st.1.length ∧
    (∀ p ∈ st.2, n0 ≤ p.2 ∧ p.2 < st.1.length) ∧
    (st.2.map Prod.snd).Nodup

/-! General lemmas about the dict and set operations. -/

theorem mem_setAdd {s : List Str} {x y : Str} :
    y ∈ setAdd s x ↔ y ∈ s ∨ y = x := by
  by_cases h : x ∈ s
  · simp only [setAdd, if_pos h]
    constructor
    · exact Or.inl
    · rintro (hy | rfl)
      · exact hy
      · exact h
  · simp [setAdd, if_neg h]

theorem mem_setUnion {xs : List Str} : ∀ {s : List Str} {y : Str},
    y ∈ setUnion s xs ↔ y ∈ s ∨ y ∈ xs := by
  induction xs with
  | nil => simp [setUnion]
  | cons a l ih =>
    intro s y
    show y ∈ setUnion (setAdd s a) l ↔ _
    rw [ih, mem_setAdd]
    simp
    tauto

theorem alookup_dictSet_self {α β : Type} [DecidableEq α]
    (d : List (α × β)) (k : α) (v : β) :
    alookup k (dictSet d k v) = some v := by
  induction d with
  | nil => simp [dictSet, alookup]
  | cons p r ih =>
    by_cases h : p.1 = k <;> simp [dictSet, alookup, h, ih]

theorem alookup_dictSet_ne {α β : Type} [DecidableEq α]
    (d : List (α × β)) (k k' : α) (v : β) (h : k' ≠ k) :
    alookup k' (dictSet d k v) = alookup k' d := by
  have h' : k ≠ k' := fun e => h e.symm
  induction d with
  | nil => simp [dictSet, alookup, h']
  | cons p r ih =>
    by_cases hp : p.1 = k
    · subst hp
      have hp' : p.1 ≠ k' := h'
      simp [dictSet, alookup, hp']
    · simp [dictSet, alookup, hp, ih]

theorem alookup_append_of_none {α β : Type} [DecidableEq α]
    (k : α) (l1 l2 : List (α × β)) (h : alookup k l1 = none) :
    alookup k (l1 ++ l2) = alookup k l2 := by
  induction l1 with
  | nil => simp
  | cons p r ih =>
    by_cases hp : p.1 = k
    · simp [alookup, hp] at h
    · simp only [alookup, hp] at h
      simp [alookup, hp, ih h]

theorem alookup_append_of_some {α β : Type} [DecidableEq α]
    (k : α) (l1 l2 : List (α × β)) (v : β) (h : alookup k l1 = some v) :
    alookup k (l1 ++ l2) = some v := by
  induction l1 with
  | nil => simp [alookup] at h
  | cons p r ih =>
    by_cases hp : p.1 = k
    · simp only [alookup, if_pos hp] at h
      simpa [alookup, hp] using h
    · simp only [alookup, hp] at h
      simp [alookup, hp, ih h]

theorem getCat_dictSet (d : List (Str × List Str)) (k k' : Str)
    (v : List Str) :
    getCat (dictSet d k' v) k = if k = k' then v else getCat d k := by
  by_cases h : k = k'
  · subst h
    simp [getCat, alookup_dictSet_self]
  · simp [getCat, h, alookup_dictSet_ne _ _ _ _ h]

theorem getCat_dictUpdateSet (d : List (Str × List Str)) (k k' : Str)
    (xs : List Str) :
    getCat (dictUpdateSet d k' xs) k =
      if k = k' then setUnion (getCat d k) xs else getCat d k := by
  unfold dictUpdateSet
  cases hl : alookup k' d with
  | some s =>
    rw [getCat_dictSet]
    by_cases h : k = k'
    · subst h
      simp [getCat, hl]
    · simp [h]
  | none =>
    by_cases h : k = k'
    · subst h
      simp only [getCat, alookup_append_of_none _ _ _ hl, hl]
      simp [alookup]
    · have h2 : k' ≠ k := fun e => h e.symm
      simp only [if_neg h, getCat]
      cases hk : alookup k d with
      | some v => simp [alookup_append_of_some _ _ _ _ hk, hk]
      | none => simp [alookup_append_of_none _ _ _ hk, hk, alookup, h2]

theorem getCat_dictAddSet (d : List (Str × List Str)) (k k' : Str)
    (x : Str) :
    getCat (dictAddSet d k' x) k =
      if k = k' then setAdd (getCat d k) x else getCat d k := by
  unfold dictAddSet
  cases hl : alookup k' d with
  | some s =>
    rw [getCat_dictSet]
    by_cases h : k = k'
    · subst h
      simp [getCat, hl]
    · simp [h]
  | none =>
    by_cases h : k = k'
    · subst h
      simp only [getCat, alookup_append_of_none _ _ _ hl, hl]
      simp [alookup]
    · have h2 : k' ≠ k := fun e => h e.symm
      simp only [if_neg h, getCat]
      cases hk : alookup k d with
      | some v => simp [alookup_append_of_some _ _ _ _ hk, hk]
      | none => simp [alookup_append_of_none _ _ _ hk, hk, alookup, h2]

theorem kd_luvas_resp :
    (strOf "Luvas" = strOf "Proteção Respiratória") = False :=
  eq_false (by decide)

theorem kd_luvas_vest : (strOf "Luvas" = strOf "Vestimentas") = False :=
  eq_false (by decide)

theorem kd_luvas_oculos : (strOf "Luvas" = strOf "Óculos") = False :=
  eq_false (by decide)

theorem kd_vest_luvas : (strOf "Vestimentas" = strOf "Luvas") = False :=
  eq_false (by decide)

theorem kd_vest_resp :
    (strOf "Vestimentas" = strOf "Proteção Respiratória") = False :=
  eq_false (by decide)

theorem kd_vest_oculos : (strOf "Vestimentas" = strOf "Óculos") = False :=
  eq_false (by decide)

theorem kd_oculos_luvas : (strOf "Óculos" = strOf "Luvas") = False :=
  eq_false (by decide)

theorem kd_oculos_resp :
    (strOf "Óculos" = strOf "Proteção Respiratória") = False :=
  eq_false (by decide)

theorem kd_oculos_vest : (strOf "Óculos" = strOf "Vestimentas") = False :=
  eq_false (by decide)

theorem kd_resp_luvas :
    (strOf "Proteção Respiratória" = strOf "Luvas") = False :=
  eq_false (by decide)

theorem kd_resp_vest :
    (strOf "Proteção Respiratória" = strOf "Vestimentas") = False :=
  eq_false (by decide)

theorem kd_resp_oculos :
    (strOf "Proteção Respiratória" = strOf "Óculos") = False :=
  eq_false (by decide)

/-- Membership in the gloves category of `montar_base_epis_cat`: the baseline
item, plus the open-flame pair, plus the anti-vibration glove under the
mechanical-treatment family. -/
theorem mem_luvas (ctx : Ctx) (x : Str) :
    x ∈ getCat (montar_base_epis_cat ctx) (strOf "Luvas") ↔
      x ∈ getCat EPIS_CAT_BASE (strOf "Luvas") ∨
      (ctx.tem_chama = true ∧
        (x = strOf "LUVA ARAMIDA" ∨ x = strOf "LUVA DE RASPA")) ∨
      ((ctx.tem_trat_mec || ctx.tem_agulheiro || ctx.tem_lix_pneum) = true ∧
        x = strOf "LUVA ANTI-VIBRAÇÃO") := by
  simp only [montar_base_epis_cat,
    apply_ite (fun d => getCat d (strOf "Luvas")),
    getCat_dictSet, getCat_dictUpdateSet, getCat_dictAddSet,
    kd_luvas_resp, kd_luvas_vest, kd_luvas_oculos,
    if_true, if_false, ite_self, eq_self_iff_true]
  by_cases hc : ctx.tem_chama <;>
    by_cases hm : (ctx.tem_trat_mec || ctx.tem_agulheiro || ctx.tem_lix_pneum) <;>
      (simp [hc, hm, mem_setAdd, mem_setUnion]; try tauto)

set_option maxHeartbeats 1600000 in
/-- Membership in the garments category of `montar_base_epis_cat`: the
baseline items plus the flame, height/rope and over-water bundles. -/
theorem mem_vestimentas (ctx : Ctx) (x : Str) :
    x ∈ getCat (montar_base_epis_cat ctx) (strOf "Vestimentas") ↔
      x ∈ getCat EPIS_CAT_BASE (strOf "Vestimentas") ∨
      (ctx.tem_chama = true ∧
        x ∈ [strOf "BALACLAVA", strOf "AVENTAL DE RASPA", strOf "CAPUZ",
          strOf "MANGA DE RASPA", strOf "PERNEIRA DE RASPA",
          strOf "VESTIM. COMPLETA DE RASPA"]) ∨
      ((ctx.tem_altura || ctx.tem_acesso_cordas) = true ∧
        x ∈ [strOf "BOTA CANO ALTO",
          strOf "CAPACETE S/ABAS C/ CARNEIRA E PRESILHA DE QUEIXO EM Y",
          strOf "CINTO DE SEG. TP PARA-QUEDISTA",
          strOf "CINTO DE SEGURANÇA PARA RESGATE",
          strOf "DUPLO TALABARTE EM Y OU LINHA DE VIDA CONJUGADA TRAVA QUEDA",
          strOf "MACACÃO COM GOLA TIPO PADRE E BOLSOS FECHADOS"]) ∨
      (ctx.tem_sobre_o_mar = true ∧
        x ∈ [strOf "BOTA CANO ALTO",
          strOf "CAPACETE S/ABAS C/ CARNEIRA E PRESILHA DE QUEIXO EM Y",
          strOf "CINTO DE SEG. TP PARA-QUEDISTA",
          strOf "CINTO DE SEGURANÇA PARA RESGATE",
          strOf "COLETE SALVA VIDAS RF (apenas para trabalhos a quente)",
          strOf "COLETE SALVA-VIDAS",
          strOf "DUPLO TALABARTE EM Y OU LINHA DE VIDA CONJUGADA TRAVA QUEDA",
          strOf "MACACÃO COM GOLA TIPO PADRE E BOLSOS FECHADOS"]) := by
  simp only [montar_base_epis_cat,
    apply_ite (fun d => getCat d (strOf "Vestimentas")),
    getCat_dictSet, getCat_dictUpdateSet, getCat_dictAddSet,
    kd_vest_luvas, kd_vest_resp, kd_vest_oculos,
    if_true, if_false, ite_self, eq_self_iff_true]
  by_cases hc : ctx.tem_chama <;>
    by_cases ha : (ctx.tem_altura || ctx.tem_acesso_cordas) <;>
      by_cases hs : ctx.tem_sobre_o_mar <;>
        (simp [hc, ha, hs, mem_setAdd, mem_setUnion]; try tauto)

/-- The respiratory category of `montar_base_epis_cat`: replaced wholesale by
the filtering half-mask under the flame or mechanical-treatment-family flags,
otherwise the baseline. -/
theorem getCat_resp (ctx : Ctx) :
    getCat (montar_base_epis_cat ctx) (strOf "Proteção Respiratória") =
      if (ctx.tem_chama || ctx.tem_trat_mec || ctx.tem_agulheiro ||
          ctx.tem_lix_pneum) = true then
        [strOf "PEÇA SEMI-FACIAL FILTRANTE 2"]
      else getCat EPIS_CAT_BASE (strOf "Proteção Respiratória") := by
  simp only [montar_base_epis_cat,
    apply_ite (fun d => getCat d (strOf "Proteção Respiratória")),
    getCat_dictSet, getCat_dictUpdateSet, getCat_dictAddSet,
    kd_resp_luvas, kd_resp_vest, kd_resp_oculos,
    if_true, if_false, ite_self, eq_self_iff_true]
  by_cases hc : ctx.tem_chama <;>
    by_cases hm : (ctx.tem_trat_mec || ctx.tem_agulheiro || ctx.tem_lix_pneum) <;>
      simp [hc, hm]

/-- Membership in the eyewear category of `montar_base_epis_cat`: the
no-hazard default replaces the baseline when no eye-hazard flag holds, and the
welding-related items are added on top. -/
theorem mem_oculos (ctx : Ctx) (x : Str) :
    x ∈ getCat (montar_base_epis_cat ctx) (strOf "Óculos") ↔
      (if hazard_olhos ctx then x ∈ getCat EPIS_CAT_BASE (strOf "Óculos")
       else x = strOf "ÓCULOS SEGURANÇA CONTRA IMPACTO") ∨
      (ctx.tem_chama = true ∧ x = strOf "MÁSCARA SOLDADOR") ∨
      ((ctx.tem_solda || ctx.tem_oxicorte) = true ∧
        x = strOf "LENTE DE ACORDO COM AMPERAGEM DA MÁQUINA") ∨
      (ctx.tem_oxicorte = true ∧ x = strOf "ÓCULOS MAÇARIQUEIRO") := by
  have hz : (ctx.tem_chama || ctx.tem_trat_mec || ctx.tem_agulheiro ||
      ctx.tem_lix_pneum || ctx.tem_lixadeira || ctx.tem_corte ||
      ctx.tem_serra_sabre) = hazard_olhos ctx := rfl
  simp only [montar_base_epis_cat,
    apply_ite (fun d => getCat d (strOf "Óculos")),
    getCat_dictSet, getCat_dictUpdateSet, getCat_dictAddSet,
    kd_oculos_luvas, kd_oculos_resp, kd_oculos_vest,
    if_true, if_false, ite_self, eq_self_iff_true, hz]
  cases hh : hazard_olhos ctx <;>
    cases hc : ctx.tem_chama <;>
      cases hsol : ctx.tem_solda <;>
        cases hoxi : ctx.tem_oxicorte <;>
          (simp [hh, hc, hsol, hoxi, mem_setAdd, mem_setUnion]; try tauto)

/-- C1 counterexample: the all-false context versus the context with only the
open-flame flag true (pointwise larger).  Turning the flag on removes the
no-hazard eyewear default from the eyewear category, and removes the baseline
respiratory item "NÃO APLICÁVEL" from the respiratory category. -/
theorem epis_cat_not_monotone :
    let c0 : Ctx := ⟨[], false, false, false, false, false, false, false,
      false, false, false, false, false, false, false, false, false, false,
      false, false⟩
    let c1 : Ctx := { c0 with tem_chama := true }
    ctxLE c0 c1 ∧
    strOf "ÓCULOS SEGURANÇA CONTRA IMPACTO" ∈
      getCat (montar_base_epis_cat c0) (strOf "Óculos") ∧
    strOf "ÓCULOS SEGURANÇA CONTRA IMPACTO" ∉
      getCat (montar_base_epis_cat c1) (strOf "Óculos") ∧
    strOf "NÃO APLICÁVEL" ∈
      getCat EPIS_CAT_BASE (strOf "Proteção Respiratória") ∧
    strOf "NÃO APLICÁVEL" ∈
      getCat (montar_base_epis_cat c0) (strOf "Proteção Respiratória") ∧
    strOf "NÃO APLICÁVEL" ∉
      getCat (montar_base_epis_cat c1) (strOf "Proteção Respiratória") := by
  refine ⟨⟨?_, ?_, ?_, ?_, ?_, ?_, ?_, ?_, ?_, ?_, ?_, ?_, ?_, ?_, ?_, ?_,
    ?_, ?_, ?_⟩, ?_, ?_, ?_, ?_, ?_⟩ <;> decide

/-- C1 amended: the flag-monotone growth holds category by category where the
builder is additive — gloves and garments only ever gain items (and always
keep their baseline items) — and it holds for eyewear among contexts that
already have an eye hazard and for the respiratory category among contexts
that already have a flame or mechanical-treatment hazard; it fails only
through the two wholesale replacements exhibited by the counterexample. -/
theorem epis_cat_monotone_amended (c1 c2 : Ctx) (hle : ctxLE c1 c2) :
    (∀ x, x ∈ getCat (montar_base_epis_cat c1) (strOf "Luvas") →
      x ∈ getCat (montar_base_epis_cat c2) (strOf "Luvas")) ∧
    (∀ x, x ∈ getCat (montar_base_epis_cat c1) (strOf "Vestimentas") →
      x ∈ getCat (montar_base_epis_cat c2) (strOf "Vestimentas")) ∧
    (∀ x, x ∈ getCat EPIS_CAT_BASE (strOf "Luvas") →
      x ∈ getCat (montar_base_epis_cat c2) (strOf "Luvas")) ∧
    (∀ x, x ∈ getCat EPIS_CAT_BASE (strOf "Vestimentas") →
      x ∈ getCat (montar_base_epis_cat c2) (strOf "Vestimentas")) ∧
    (hazard_olhos c1 = true →
      ∀ x, x ∈ getCat (montar_base_epis_cat c1) (strOf "Óculos") →
        x ∈ getCat (montar_base_epis_cat c2) (strOf "Óculos")) ∧
    ((c1.tem_chama || c1.tem_trat_mec || c1.tem_agulheiro ||
        c1.tem_lix_pneum) = true →
      ∀ x, x ∈ getCat (montar_base_epis_cat c1) (strOf "Proteção Respiratória") →
        x ∈ getCat (montar_base_epis_cat c2) (strOf "Proteção Respiratória")) := by
  obtain ⟨h1, h2, h3, h4, h5, h6, h7, h8, h9, h10, h11, h12, h13, h14, h15,
    h16, h17, h18, h19⟩ := hle
  have hz : hazard_olhos c1 = true → hazard_olhos c2 = true := by
    unfold hazard_olhos
    simp only [Bool.or_eq_true]
    rintro (((((( a | a ) | a ) | a ) | a ) | a ) | a)
    · exact Or.inl (Or.inl (Or.inl (Or.inl (Or.inl (Or.inl (h5 a))))))
    · exact Or.inl (Or.inl (Or.inl (Or.inl (Or.inl (Or.inr (h9 a))))))
    · exact Or.inl (Or.inl (Or.inl (Or.inl (Or.inr (h10 a)))))
    · exact Or.inl (Or.inl (Or.inl (Or.inr (h11 a))))
    · exact Or.inl (Or.inl (Or.inr (h12 a)))
    · exact Or.inl (Or.inr (h15 a))
    · exact Or.inr (h16 a)
  refine ⟨?_, ?_, ?_, ?_, ?_, ?_⟩
  · intro x hx
    rw [mem_luvas] at hx ⊢
    rcases hx with hb | ⟨hc, hi⟩ | ⟨hm, hi⟩
    · exact Or.inl hb
    · exact Or.inr (Or.inl ⟨h5 hc, hi⟩)
    · refine Or.inr (Or.inr ⟨?_, hi⟩)
      simp only [Bool.or_eq_true] at hm ⊢
      rcases hm with (a | a) | a
      · exact Or.inl (Or.inl (h9 a))
      · exact Or.inl (Or.inr (h10 a))
      · exact Or.inr (h11 a)
  · intro x hx
    rw [mem_vestimentas] at hx ⊢
    rcases hx with hb | ⟨hc, hi⟩ | ⟨ha, hi⟩ | ⟨hs, hi⟩
    · exact Or.inl hb
    · exact Or.inr (Or.inl ⟨h5 hc, hi⟩)
    · refine Or.inr (Or.inr (Or.inl ⟨?_, hi⟩))
      simp only [Bool.or_eq_true] at ha ⊢
      rcases ha with a | a
      · exact Or.inl (h2 a)
      · exact Or.inr (h3 a)
    · exact Or.inr (Or.inr (Or.inr ⟨h4 hs, hi⟩))
  · intro x hx
    rw [mem_luvas]
    exact Or.inl hx
  · intro x hx
    rw [mem_vestimentas]
    exact Or.inl hx
  · intro hh1 x hx
    have hh2 := hz hh1
    rw [mem_oculos] at hx ⊢
    rw [hh1] at hx
    rw [hh2]
    simp only [if_true] at hx ⊢
    rcases hx with hb | ⟨hc, hi⟩ | ⟨hs, hi⟩ | ⟨ho, hi⟩
    · exact Or.inl hb
    · exact Or.inr (Or.inl ⟨h5 hc, hi⟩)
    · refine Or.inr (Or.inr (Or.inl ⟨?_, hi⟩))
      simp only [Bool.or_eq_true] at hs ⊢
      rcases hs with a | a
      · exact Or.inl (h7 a)
      · exact Or.inr (h6 a)
    · exact Or.inr (Or.inr (Or.inr ⟨h6 ho, hi⟩))
  · intro hm1 x hx
    have hm2 : (c2.tem_chama || c2.tem_trat_mec || c2.tem_agulheiro ||
        c2.tem_lix_pneum) = true := by
      simp only [Bool.or_eq_true] at hm1 ⊢
      rcases hm1 with ((a | a) | a) | a
      · exact Or.inl (Or.inl (Or.inl (h5 a)))
      · exact Or.inl (Or.inl (Or.inr (h9 a)))
      · exact Or.inl (Or.inr (h10 a))
      · exact Or.inr (h11 a)
    rw [getCat_resp, hm1] at hx
    rw [getCat_resp, hm2]
    simpa using hx

/-- C1 witness: a concrete instance of the amended monotonicity — the
baseline glove survives when the flame flag is added, and the eyewear of a
flame context survives adding the height flag. -/
theorem epis_cat_monotone_amended_witness :
    strOf "LUVA DE PROTEÇÃO CONTRA IMPACTOS MODELO II (3, 4, 3, 3, 'C', 'P')" ∈
      getCat (montar_base_epis_cat
        ⟨[], false, false, false, false, true, false, false, false, false,
         false, false, false, false, false, false, false, false, false,
         false⟩) (strOf "Luvas") ∧
    strOf "MÁSCARA SOLDADOR" ∈
      getCat (montar_base_epis_cat
        ⟨[], false, true, false, false, true, false, false, false, false,
         false, false, false, false, false, false, false, false, false,
         false⟩) (strOf "Óculos") := by
  constructor
  · exact (epis_cat_monotone_amended
      ⟨[], false, false, false, false, false, false, false, false, false,
       false, false, false, false, false, false, false, false, false, false⟩
      ⟨[], false, false, false, false, true, false, false, false, false,
       false, false, false, false, false, false, false, false, false, false⟩
      (by refine ⟨?_, ?_, ?_, ?_, ?_, ?_, ?_, ?_, ?_, ?_, ?_, ?_, ?_, ?_,
        ?_, ?_, ?_, ?_, ?_⟩ <;> decide)).2.2.1
      _ (by decide)
  · exact (epis_cat_monotone_amended
      ⟨[], false, false, false, false, true, false, false, false, false,
       false, false, false, false, false, false, false, false, false, false⟩
      ⟨[], false, true, false, false, true, false, false, false, false,
       false, false, false, false, false, false, false, false, false, false⟩
      (by refine ⟨?_, ?_, ?_, ?_, ?_, ?_, ?_, ?_, ?_, ?_, ?_, ?_, ?_, ?_,
        ?_, ?_, ?_, ?_, ?_⟩ <;> decide)).2.2.2.2.1
      (by decide) _ (by decide)

/-- C3 counterexample: `_comparar_com_plano` subtracts with EXACT string
equality, not the case/whitespace-normalized comparison the claim describes:
for expected set containing "a" and observed set containing "A", the code
reports "a" missing, while the normalized subtraction of the claim would
report nothing missing. -/
theorem comparar_not_normalized :
    (comparar_com_plano [strOf "a"] [strOf "A"]).faltantes = [strOf "a"] ∧
    faltantes_spec_normalizado [strOf "a"] [strOf "A"] = [] ∧
    (comparar_com_plano [strOf "a"] [strOf "A"]).faltantes ≠
      faltantes_spec_normalizado [strOf "a"] [strOf "A"] := by
  decide

/-- C3 amended: the reconciliation computes missing = expected − observed and
excess = observed − expected by EXACT (unnormalized) string comparison; for
expected {"A","B"} and observed {"B","C"} it yields missing = {"A"} and
excess = {"C"}; and processing a category only produces add-item actions for
missing items — never a removal. -/
theorem comparar_com_plano_amended (esperados observados : List Str)
    (categoria : Str) (plano : List (Str × List Str)) (itens : List Str) :
    (∀ x, x ∈ (comparar_com_plano esperados observados).faltantes ↔
      x ∈ esperados ∧ x ∉ observados) ∧
    (∀ x, x ∈ (comparar_com_plano esperados observados).excedentes ↔
      x ∈ observados ∧ x ∉ esperados) ∧
    (comparar_com_plano [strOf "A", strOf "B"]
      [strOf "B", strOf "C"]).faltantes = [strOf "A"] ∧
    (comparar_com_plano [strOf "A", strOf "B"]
      [strOf "B", strOf "C"]).excedentes = [strOf "C"] ∧
    (∀ a, a ∈ processar_categoria categoria plano itens →
      ∃ i, i ∈ (comparar_com_plano ((alookup categoria plano).getD [])
        itens).faltantes ∧ a = EPIAction.addItem i) ∧
    (∀ i, EPIAction.removeItem i ∉ processar_categoria categoria plano itens)
    := by
  refine ⟨?_, ?_, by decide, by decide, ?_, ?_⟩
  · intro x
    simp [comparar_com_plano]
  · intro x
    simp [comparar_com_plano]
  · intro a ha
    simp only [processar_categoria, List.mem_map] at ha
    obtain ⟨i, hi, rfl⟩ := ha
    exact ⟨i, hi, rfl⟩
  · intro i hi
    simp [processar_categoria] at hi

/-- C3 witness: the amended theorem at Scenario E's concrete input. -/
theorem comparar_com_plano_amended_witness :
    strOf "A" ∈ (comparar_com_plano [strOf "A", strOf "B"]
      [strOf "B", strOf "C"]).faltantes ∧
    EPIAction.removeItem (strOf "C") ∉
      processar_categoria (strOf "Luvas")
        [(strOf "Luvas", [strOf "A", strOf "B"])] [strOf "B", strOf "C"] :=
  ⟨((comparar_com_plano_amended [strOf "A", strOf "B"] [strOf "B", strOf "C"]
      (strOf "Luvas") [(strOf "Luvas", [strOf "A", strOf "B"])]
      [strOf "B", strOf "C"]).1 (strOf "A")).mpr (by decide),
   (comparar_com_plano_amended [strOf "A", strOf "B"] [strOf "B", strOf "C"]
      (strOf "Luvas") [(strOf "Luvas", [strOf "A", strOf "B"])]
      [strOf "B", strOf "C"]).2.2.2.2.2 (strOf "C")⟩

/-- C4 counterexample: the two normalizers are NOT identical on every string.
U+0E31 (a Thai vowel sign) has Unicode combining class 0 but general category
Mn, so `normalizar_texto` (which drops characters with nonzero combining
class) keeps it while `normalizar_string` (which drops category-Mn
characters) removes it. -/
theorem normalizers_differ :
    normalizar_texto [0xE31] = [0xE31] ∧
    normalizar_string [0xE31] = [] ∧
    normalizar_texto [0xE31] ≠ normalizar_string [0xE31] := by
  decide

theorem filter_congr' {α : Type} (p q : α → Bool) :
    ∀ (l : List α), (∀ a ∈ l, p a = q a) → l.filter p = l.filter q := by
  intro l
  induction l with
  | nil => intro _; rfl
  | cons a r ih =>
    intro h
    have ha := h a (by simp)
    simp only [List.filter, ha, ih fun b hb => h b (by simp [hb])]

/-- C4 amended: the two normalizers agree on every string all of whose NFD
code points have a nonzero combining class exactly when their general
category is Mn (which covers all Latin/Portuguese text this program
handles); they differ only on exotic marks such as U+0E31. -/
theorem normalizers_agree_amended (s : Str)
    (h : ∀ c ∈ nfdStr s, (ccc c ≠ 0 ↔ isMn c = true)) :
    normalizar_texto s = normalizar_string s := by
  unfold normalizar_texto normalizar_string
  by_cases hs : s = []
  · simp [hs]
  · simp only [if_neg hs]
    congr 1
    congr 1
    apply filter_congr'
    intro c hc
    have hcc := h c hc
    by_cases hz : ccc c = 0
    · have : isMn c = false := by
        cases hm : isMn c
        · rfl
        · exact absurd (hcc.mpr hm) (by simp [hz])
      simp [hz, this]
    · have : isMn c = true := hcc.mp hz
      simp [hz, this]

/-- C4 witness: the amended theorem applied to a concrete accented string. -/
theorem normalizers_agree_amended_witness :
    normalizar_texto (strOf "Solda à  Quente") =
      normalizar_string (strOf "Solda à  Quente") :=
  normalizers_agree_amended (strOf "Solda à  Quente") (by decide)

/-- C5: Scenario A.  For description "TRABALHO A QUENTE COM SOLDA EM ALTURA"
and empty characteristics the classifier sets the open-flame and height flags;
the primary-EPI builder answers Q001 (Cinto) = Sim, Q003 (Colete) = Não,
Q006 (Protetor Facial) = Sim; the eyewear category contains the welder's mask
and the lens-shade item; the full questionnaire answers Q009 (contenção de
fagulhas) = Sim and Q013 (inibir sensores) = NA because the CO2 flag is false
even though the flame flag is true. -/
theorem scenario_A_solda_em_altura :
    (gerar_plano_trabalho_quente
      (strOf "TRABALHO A QUENTE COM SOLDA EM ALTURA") []).contexto.tem_chama =
      true ∧
    (gerar_plano_trabalho_quente
      (strOf "TRABALHO A QUENTE COM SOLDA EM ALTURA") []).contexto.tem_altura =
      true ∧
    alookup EPI_Q001_CINTO (gerar_plano_trabalho_quente
      (strOf "TRABALHO A QUENTE COM SOLDA EM ALTURA") []).epi_radios =
      some (strOf "Sim") ∧
    alookup EPI_Q003_COLETE (gerar_plano_trabalho_quente
      (strOf "TRABALHO A QUENTE COM SOLDA EM ALTURA") []).epi_radios =
      some (strOf "Não") ∧
    alookup EPI_Q006_PROT_FACIAL (gerar_plano_trabalho_quente
      (strOf "TRABALHO A QUENTE COM SOLDA EM ALTURA") []).epi_radios =
      some (strOf "Sim") ∧
    strOf "MÁSCARA SOLDADOR" ∈
      (alookup (strOf "Óculos") (gerar_plano_trabalho_quente
        (strOf "TRABALHO A QUENTE COM SOLDA EM ALTURA") []).epis_cat).getD [] ∧
    strOf "LENTE DE ACORDO COM AMPERAGEM DA MÁQUINA" ∈
      (alookup (strOf "Óculos") (gerar_plano_trabalho_quente
        (strOf "TRABALHO A QUENTE COM SOLDA EM ALTURA") []).epis_cat).getD [] ∧
    alookup QPT_Q009_FAGULHAS (gerar_plano_trabalho_quente
      (strOf "TRABALHO A QUENTE COM SOLDA EM ALTURA") []).qpt =
      some (strOf "Sim") ∧
    (gerar_plano_trabalho_quente
      (strOf "TRABALHO A QUENTE COM SOLDA EM ALTURA") []).contexto.tem_co2 =
      false ∧
    alookup QPT_Q013_INIBIR_SENSORES (gerar_plano_trabalho_quente
      (strOf "TRABALHO A QUENTE COM SOLDA EM ALTURA") []).qpt =
      some (strOf "NA") := by
  decide

/-- C2 counterexample: with both inputs empty, `montar_base_epi_radios` does
NOT return `EPI_RADIOS_BASE` unchanged — Q006 (Protetor Facial) is overridden
from the base default "Sim" to "Não" — and `montar_base_epis_cat` does NOT
return the baseline eyewear items: the baseline "ÓCULOS AMPLA VISÃO" is
absent, the category having been replaced by the no-hazard default. -/
theorem scenario_C_counterexample :
    montar_base_epi_radios (montar_contexto_from_textos [] []) ≠
      EPI_RADIOS_BASE ∧
    alookup EPI_Q006_PROT_FACIAL
      (montar_base_epi_radios (montar_contexto_from_textos [] [])) =
      some (strOf "Não") ∧
    alookup EPI_Q006_PROT_FACIAL EPI_RADIOS_BASE = some (strOf "Sim") ∧
    strOf "ÓCULOS AMPLA VISÃO" ∈
      (alookup (strOf "Óculos") EPIS_CAT_BASE).getD [] ∧
    strOf "ÓCULOS AMPLA VISÃO" ∉
      (alookup (strOf "Óculos")
        (montar_base_epis_cat (montar_contexto_from_textos [] []))).getD [] := by
  decide

/-- C2 amended: with empty description and characteristics no hazard flag is
detected; `montar_base_qpt` returns `QPT_BASE` unchanged and
`montar_base_apn1` gives all twenty numbered entries "Não";
`montar_base_epi_radios` returns the base with exactly one change — Q006
(Protetor Facial) overridden to "Não" — and `montar_base_epis_cat` returns the
baseline with exactly one change: the eyewear category replaced by the single
no-hazard item "ÓCULOS SEGURANÇA CONTRA IMPACTO". -/
theorem scenario_C_amended :
    montar_contexto_from_textos [] [] =
      ⟨[], false, false, false, false, false, false, false, false, false,
       false, false, false, false, false, false, false, false, false,
       false⟩ ∧
    montar_base_qpt (montar_contexto_from_textos [] []) = QPT_BASE ∧
    montar_base_apn1 (montar_contexto_from_textos [] []) =
      (List.range 20).map (fun i => (apnCode (i + 1), strOf "Não")) ∧
    montar_base_epi_radios (montar_contexto_from_textos [] []) =
      dictSet EPI_RADIOS_BASE EPI_Q006_PROT_FACIAL (strOf "Não") ∧
    montar_base_epis_cat (montar_contexto_from_textos [] []) =
      dictSet EPIS_CAT_BASE (strOf "Óculos")
        [strOf "ÓCULOS SEGURANÇA CONTRA IMPACTO"] := by
  decide

/-- C6: the label-to-enum matcher is precise about "Não" versus
"Not applicable": for target NA, a label whose normalized text is exactly
"NAO" (or "NÃO") never matches, while a label whose normalized text is one of
the fixed NA phrasings, or contains "NAO SE APLICA" or "NAO APLICAVEL" as a
substring, does match; for target "Não", the label "NAO SE APLICA" never
matches. -/
theorem label_matching_na_precision :
    (∀ lbl, normalizar_string lbl = strOf "NAO" ∨
        normalizar_string lbl = strOf "NÃO" →
      texto_label_corresponde lbl (strOf "NA") = false) ∧
    (∀ lbl, normalizar_string lbl ∈ possiveis_na →
      texto_label_corresponde lbl (strOf "NA") = true) ∧
    (∀ lbl, containsStr (strOf "NAO SE APLICA") (normalizar_string lbl) = true ∨
        containsStr (strOf "NAO APLICAVEL") (normalizar_string lbl) = true →
      texto_label_corresponde lbl (strOf "NA") = true) ∧
    texto_label_corresponde (strOf "NAO SE APLICA") (strOf "Não") = false := by
  refine ⟨?_, ?_, ?_, by decide⟩
  · rintro lbl (h | h) <;>
      (simp only [texto_label_corresponde]; rw [h]; decide)
  · intro lbl h
    simp only [possiveis_na, List.mem_cons, List.not_mem_nil, or_false] at h
    rcases h with h | h | h | h | h | h | h <;>
      (simp only [texto_label_corresponde]; rw [h]; decide)
  · intro lbl h
    simp only [texto_label_corresponde]
    rw [if_pos (Or.inl (by decide : normalizar_string (strOf "NA") =
      strOf "NA"))]
    by_cases hmem : normalizar_string lbl ∈ possiveis_na
    · rw [if_pos hmem]
    · rw [if_neg hmem, if_pos ?_]
      rcases h with h | h <;> simp [h]

/-- C6 witness: the matcher at concrete labels — a bare "Não" never matches
target NA, "N/A" does, and a longer phrase containing "NÃO SE APLICA"
does. -/
theorem label_matching_na_precision_witness :
    texto_label_corresponde (strOf "Não") (strOf "NA") = false ∧
    texto_label_corresponde (strOf "N/A") (strOf "NA") = true ∧
    texto_label_corresponde (strOf "Isto NÃO SE APLICA aqui") (strOf "NA") =
      true :=
  ⟨label_matching_na_precision.1 (strOf "Não") (Or.inl (by decide)),
   label_matching_na_precision.2.1 (strOf "N/A") (by decide),
   label_matching_na_precision.2.2.1 (strOf "Isto NÃO SE APLICA aqui")
     (Or.inl (by decide))⟩

theorem listStarts_iff (w : Str) : ∀ s, listStarts w s = true ↔
    ∃ t, s = w ++ t := by
  induction w with
  | nil =>
    intro s
    simp [listStarts]
  | cons a as ih =>
    intro s
    cases s with
    | nil =>
      simp [listStarts]
    | cons b bs =>
      simp only [listStarts, Bool.and_eq_true, beq_iff_eq, ih bs]
      constructor
      · rintro ⟨rfl, t, rfl⟩
        exact ⟨t, rfl⟩
      · rintro ⟨t, ht⟩
        injection ht with h1 h2
        exact ⟨h1.symm, t, h2⟩

theorem containsStr_iff (w : Str) : ∀ s, containsStr w s = true ↔
    ∃ u v, s = u ++ w ++ v := by
  intro s
  induction s with
  | nil =>
    simp only [containsStr, List.isEmpty_iff]
    constructor
    · rintro rfl
      exact ⟨[], [], rfl⟩
    · rintro ⟨u, v, huv⟩
      rcases List.append_eq_nil.mp ((List.append_assoc u w v ▸ huv).symm)
        with ⟨hu, hwv⟩
      exact (List.append_eq_nil.mp hwv).1
  | cons c cs ih =>
    simp only [containsStr, Bool.or_eq_true, listStarts_iff, ih]
    constructor
    · rintro (⟨t, ht⟩ | ⟨u, v, rfl⟩)
      · exact ⟨[], t, by simpa using ht⟩
      · exact ⟨c :: u, v, rfl⟩
    · rintro ⟨u, v, huv⟩
      cases u with
      | nil =>
        exact Or.inl ⟨v, by simpa using huv⟩
      | cons x xs =>
        injection huv with h1 h2
        exact Or.inr ⟨xs, v, h2⟩

theorem containsStr_mono_left {p q s : Str}
    (h : containsStr (p ++ q) s = true) : containsStr p s = true := by
  rw [containsStr_iff] at h ⊢
  obtain ⟨u, v, rfl⟩ := h
  exact ⟨u, q ++ v, by simp⟩

theorem containsStr_mono_right {p q s : Str}
    (h : containsStr (p ++ q) s = true) : containsStr q s = true := by
  rw [containsStr_iff] at h ⊢
  obtain ⟨u, v, rfl⟩ := h
  exact ⟨u ++ p, v, by simp⟩

/-- C9: invariants of every context `montar_contexto_from_textos` produces:
the oxy-cutting flag implies the open-flame flag (its phrase is one of the
flame triggers), rope access implies height (its phrase is one of the height
triggers), and the pneumatic-sander flag implies both the sander and the
pneumatic flags (its trigger phrase contains both of theirs). -/
theorem contexto_flag_implications (descricao caracteristicas : Str) :
    ((montar_contexto_from_textos descricao caracteristicas).tem_oxicorte =
        true →
      (montar_contexto_from_textos descricao caracteristicas).tem_chama =
        true) ∧
    ((montar_contexto_from_textos descricao
        caracteristicas).tem_acesso_cordas = true →
      (montar_contexto_from_textos descricao caracteristicas).tem_altura =
        true) ∧
    ((montar_contexto_from_textos descricao caracteristicas).tem_lix_pneum =
        true →
      (montar_contexto_from_textos descricao
          caracteristicas).tem_lixadeira = true ∧
        (montar_contexto_from_textos descricao
          caracteristicas).tem_pneumatico = true) := by
  simp only [montar_contexto_from_textos]
  refine ⟨fun h => ?_, fun h => ?_, fun h => ⟨?_, ?_⟩⟩
  all_goals simp only [List.append_assoc, List.singleton_append] at h ⊢
  · simp [h]
  · simp [h]
  · have he : strOf "LIXADEIRA PNEUMATIC" =
        strOf "LIXADEIRA" ++ strOf " PNEUMATIC" := by decide
    exact containsStr_mono_left (he ▸ h)
  · have he : strOf "LIXADEIRA PNEUMATIC" =
        strOf "LIXADEIRA " ++ strOf "PNEUMATIC" := by decide
    exact containsStr_mono_right (he ▸ h)

/-- C9 witness: the implications at a description that triggers all three
antecedent flags. -/
theorem contexto_flag_implications_witness :
    (montar_contexto_from_textos
      (strOf "OXICORTE COM ACESSO POR CORDAS E LIXADEIRA PNEUMATICA")
      []).tem_chama = true ∧
    (montar_contexto_from_textos
      (strOf "OXICORTE COM ACESSO POR CORDAS E LIXADEIRA PNEUMATICA")
      []).tem_altura = true ∧
    (montar_contexto_from_textos
      (strOf "OXICORTE COM ACESSO POR CORDAS E LIXADEIRA PNEUMATICA")
      []).tem_lixadeira = true :=
  ⟨(contexto_flag_implications _ _).1 (by decide),
   (contexto_flag_implications _ _).2.1 (by decide),
   ((contexto_flag_implications _ _).2.2 (by decide)).1⟩

theorem alookup_dictAppendQ_ne (d : List (Str × List QInfo)) (k k' : Str)
    (i : QInfo) (h : k' ≠ k) :
    alookup k' (dictAppendQ d k i) = alookup k' d := by
  unfold dictAppendQ
  cases hl : alookup k d with
  | some l => exact alookup_dictSet_ne _ _ _ _ h
  | none =>
    cases hk : alookup k' d with
    | some v => exact alookup_append_of_some _ _ _ _ hk
    | none =>
      have h2 : ¬k = k' := fun e => h e.symm
      rw [alookup_append_of_none _ _ _ hk]
      simp [alookup, h2]

theorem by_text_fold_some (ps : List (Nat × (Str × Str))) :
    ∀ (m : List ((Str × Str) × QInfo) × List (Str × List QInfo))
      (tn : Str) (l0 : List QInfo), alookup tn m.2 = some l0 →
    alookup tn (ps.foldl mapaStep m).2 =
      some (l0 ++ (ps.filterMap
        (fun p => extrair_info_pergunta p.1 p.2)).filter
          (fun q => q.texto_norm = tn)) := by
  induction ps with
  | nil =>
    intro m tn l0 h
    simp [h]
  | cons p ps ih =>
    intro m tn l0 h
    rw [List.foldl_cons, List.filterMap_cons]
    cases hext : extrair_info_pergunta p.1 p.2 with
    | none =>
      rw [show mapaStep m p = m by simp [mapaStep, hext]]
      exact ih m tn l0 h
    | some info =>
      have hstep : (mapaStep m p).2 = dictAppendQ m.2 info.texto_norm info := by
        simp [mapaStep, hext]
      by_cases htn : info.texto_norm = tn
      · have h2 : alookup tn (mapaStep m p).2 = some (l0 ++ [info]) := by
          rw [hstep, htn]
          unfold dictAppendQ
          rw [h, alookup_dictSet_self]
        rw [ih _ tn (l0 ++ [info]) h2]
        simp [htn]
      · have h2 : alookup tn (mapaStep m p).2 = some l0 := by
          rw [hstep, alookup_dictAppendQ_ne _ _ _ _ (fun e => htn e.symm), h]
        rw [ih _ tn l0 h2]
        simp [htn]

theorem by_text_fold_none (ps : List (Nat × (Str × Str))) :
    ∀ (m : List ((Str × Str) × QInfo) × List (Str × List QInfo))
      (tn : Str), alookup tn m.2 = none →
    alookup tn (ps.foldl mapaStep m).2 =
      (if (ps.filterMap
          (fun p => extrair_info_pergunta p.1 p.2)).filter
            (fun q => q.texto_norm = tn) = [] then none
       else some ((ps.filterMap
          (fun p => extrair_info_pergunta p.1 p.2)).filter
            (fun q => q.texto_norm = tn))) := by
  induction ps with
  | nil =>
    intro m tn h
    simp [h]
  | cons p ps ih =>
    intro m tn h
    rw [List.foldl_cons, List.filterMap_cons]
    cases hext : extrair_info_pergunta p.1 p.2 with
    | none =>
      rw [show mapaStep m p = m by simp [mapaStep, hext]]
      exact ih m tn h
    | some info =>
      have hstep : (mapaStep m p).2 = dictAppendQ m.2 info.texto_norm info := by
        simp [mapaStep, hext]
      by_cases htn : info.texto_norm = tn
      · have h2 : alookup tn (mapaStep m p).2 = some [info] := by
          rw [hstep, htn]
          unfold dictAppendQ
          rw [h, alookup_append_of_none _ _ _ h]
          simp [alookup]
        rw [by_text_fold_some ps _ tn [info] h2]
        simp [htn]
      · have h2 : alookup tn (mapaStep m p).2 = none := by
          rw [hstep, alookup_dictAppendQ_ne _ _ _ _ (fun e => htn e.symm), h]
        rw [ih _ tn h2]
        have hfe : List.filter (fun q => decide (q.texto_norm = tn))
            (info :: List.filterMap (fun p => extrair_info_pergunta p.1 p.2)
              ps) =
            List.filter (fun q => decide (q.texto_norm = tn))
              (List.filterMap (fun p => extrair_info_pergunta p.1 p.2) ps) := by
          simp [List.filter_cons, htn]
        rw [hfe]

/-- C8: question resolution.  Code extraction zero-pads the digits so "Q7",
"007" and "7" all normalize to "007"; resolution tries the exact
(normalized-code, normalized-text) dict first; when that lookup fails it
falls back to a text-only lookup that returns the FIRST matching live
question in document order, with the warning flag set exactly when more than
one live question shares the normalized text; and when neither lookup
matches, the entry resolves to `none`. -/
theorem encontrar_questao_spec (rows : List (Str × Str))
    (codigo texto : Str) :
    (extrair_digitos_codigo (strOf "Q7") = strOf "007" ∧
     extrair_digitos_codigo (strOf "007") = strOf "007" ∧
     extrair_digitos_codigo (strOf "7") = strOf "007") ∧
    (∀ i, alookup (extrair_digitos_codigo codigo, normalizar_string texto)
        (construir_mapa_perguntas rows).1 = some i →
      encontrar_questao rows codigo texto = (some i, false)) ∧
    (alookup (extrair_digitos_codigo codigo, normalizar_string texto)
        (construir_mapa_perguntas rows).1 = none →
      encontrar_questao rows codigo texto =
        (match (infosOf rows).filter
            (fun q => q.texto_norm = normalizar_string texto) with
         | [] => (none, false)
         | q :: rest => (some q, decide (rest ≠ [])))) := by
  refine ⟨by decide, ?_, ?_⟩
  · intro i h
    have hne : (construir_mapa_perguntas rows).1 ≠ [] := by
      intro he
      rw [he] at h
      simp [alookup] at h
    simp only [encontrar_questao, if_pos hne, h]
  · intro h
    have hnone : (if (construir_mapa_perguntas rows).1 ≠ [] then
        alookup (extrair_digitos_codigo codigo, normalizar_string texto)
          (construir_mapa_perguntas rows).1 else none) = none := by
      by_cases hne : (construir_mapa_perguntas rows).1 ≠ []
      · rw [if_pos hne, h]
      · rw [if_neg hne]
    have htext : alookup (normalizar_string texto)
        (construir_mapa_perguntas rows).2 =
        (if (infosOf rows).filter
            (fun q => q.texto_norm = normalizar_string texto) = [] then none
         else some ((infosOf rows).filter
            (fun q => q.texto_norm = normalizar_string texto))) :=
      by_text_fold_none rows.enum ([], []) (normalizar_string texto) rfl
    simp only [encontrar_questao, hnone, htext]
    cases hf : (infosOf rows).filter
        (fun q => q.texto_norm = normalizar_string texto) with
    | nil => simp [hf]
    | cons q rest => simp [hf]

/-- C8 witness: resolution on three concrete rendered rows — an exact
code+text hit on the first row, and a text-only fallback that picks the first
of the two rows sharing the text "Beta" and sets the warning flag. -/
theorem encontrar_questao_spec_witness :
    encontrar_questao
      [(strOf "1", strOf "Alpha?"), (strOf "2", strOf "Beta"),
       (strOf "3", strOf "Beta")] (strOf "Q1") (strOf "Alpha?") =
      (some ⟨0, strOf "1", strOf "Alpha?", strOf "001", strOf "ALPHA?"⟩,
       false) ∧
    encontrar_questao
      [(strOf "1", strOf "Alpha?"), (strOf "2", strOf "Beta"),
       (strOf "3", strOf "Beta")] (strOf "9") (strOf "beta") =
      (some ⟨1, strOf "2", strOf "Beta", strOf "002", strOf "BETA"⟩,
       true) := by
  constructor
  · exact (encontrar_questao_spec
      [(strOf "1", strOf "Alpha?"), (strOf "2", strOf "Beta"),
       (strOf "3", strOf "Beta")] (strOf "Q1") (strOf "Alpha?")).2.1
      ⟨0, strOf "1", strOf "Alpha?", strOf "001", strOf "ALPHA?"⟩ (by decide)
  · rw [(encontrar_questao_spec
      [(strOf "1", strOf "Alpha?"), (strOf "2", strOf "Beta"),
       (strOf "3", strOf "Beta")] (strOf "9") (strOf "beta")).2.2 (by decide)]
    decide

/-! Lemmas for claim C7 (totality, idempotence and output shape of
`normalizar_texto`). -/

theorem alookup_none_of_lt_keys {β : Type} (l : List (Nat × β)) (n c : Nat)
    (hk : ∀ p ∈ l, n ≤ p.1) (hc : c < n) : alookup c l = none := by
  induction l with
  | nil => rfl
  | cons p r ih =>
    have hp : n ≤ p.1 := hk p (by simp)
    have : ¬p.1 = c := by omega
    simp only [alookup, if_neg this]
    exact ih fun q hq => hk q (by simp [hq])

theorem alookup_mem {α β : Type} [DecidableEq α] {l : List (α × β)} {k : α}
    {v : β} (h : alookup k l = some v) : (k, v) ∈ l := by
  induction l with
  | nil => simp [alookup] at h
  | cons p r ih =>
    by_cases hp : p.1 = k
    · simp only [alookup, if_pos hp] at h
      injection h with h2
      rw [← hp, ← h2]
      simp
    · simp only [alookup, if_neg hp] at h
      exact List.mem_cons_of_mem _ (ih h)

theorem acc_key_has_nfd : ∀ p ∈ accTable, (alookup p.1 nfdTable).isSome := by
  decide

theorem nfd_keys_ge : ∀ c < 0xC0, alookup c nfdTable = none := by decide

theorem ccc_small : ∀ c < 0x300, ccc c = 0 := by decide

theorem acc_keys_ge : ∀ c < 0xE0, alookup c accTable = none := by decide

/-- After NFD plus mark filtering, upper-casing lands on code points that are
NFD-inert, combining-class 0 and upper-case fixed points: case of a code
point with no decomposition entry. -/
theorem upper_good {c : Nat} (hl : alookup c nfdTable = none)
    (hc : ccc c = 0) :
    nfd (upperChar c) = [upperChar c] ∧ ccc (upperChar c) = 0 ∧
      upperChar (upperChar c) = upperChar c := by
  by_cases hr : 97 ≤ c ∧ c ≤ 122
  · have h1 : upperChar c = c - 32 := by simp [upperChar, hr]
    have hu1 : c - 32 < 0xC0 := by omega
    have hu2 : c - 32 < 0x300 := by omega
    have hu3 : ¬(97 ≤ c - 32 ∧ c - 32 ≤ 122) := by omega
    have hu4 : c - 32 < 0xE0 := by omega
    rw [h1]
    refine ⟨?_, ?_, ?_⟩
    · simp [nfd, nfd_keys_ge _ hu1]
    · exact ccc_small _ hu2
    · unfold upperChar
      rw [if_neg hu3, acc_keys_ge _ hu4]
      rfl
  · have hacc : alookup c accTable = none := by
      cases ha : alookup c accTable with
      | none => rfl
      | some v =>
        have hs := acc_key_has_nfd (c, v) (alookup_mem ha)
        rw [hl] at hs
        simp at hs
    have h1 : upperChar c = c := by simp [upperChar, hr, hacc]
    rw [h1]
    exact ⟨by simp [nfd, hl], hc, h1⟩

/-- Same, for the code points of the decomposition table's values. -/
theorem nfd_table_good : ∀ p ∈ nfdTable, ∀ c ∈ p.2, ccc c = 0 →
    nfd (upperChar c) = [upperChar c] ∧ ccc (upperChar c) = 0 ∧
      upperChar (upperChar c) = upperChar c := by decide

theorem nfd_char_good {d c : Nat} (hmem : c ∈ nfd d) (hc : ccc c = 0) :
    nfd (upperChar c) = [upperChar c] ∧ ccc (upperChar c) = 0 ∧
      upperChar (upperChar c) = upperChar c := by
  unfold nfd at hmem
  cases hl : alookup d nfdTable with
  | some l =>
    rw [hl] at hmem
    exact nfd_table_good (d, l) (alookup_mem hl) c hmem hc
  | none =>
    rw [hl] at hmem
    simp at hmem
    subst hmem
    exact upper_good hl hc

theorem mem_nfdStr {c : Nat} : ∀ {s : Str}, c ∈ nfdStr s →
    ∃ d ∈ s, c ∈ nfd d := by
  intro s
  induction s with
  | nil => simp [nfdStr]
  | cons d r ih =>
    simp only [nfdStr, List.mem_append]
    rintro (h | h)
    · exact ⟨d, by simp, h⟩
    · obtain ⟨d2, hd2, hc2⟩ := ih h
      exact ⟨d2, by simp [hd2], hc2⟩

theorem nfdStr_eq_self : ∀ {t : Str}, (∀ c ∈ t, nfd c = [c]) →
    nfdStr t = t := by
  intro t
  induction t with
  | nil => intro _; rfl
  | cons c r ih =>
    intro h
    simp only [nfdStr, h c (by simp), List.singleton_append, List.cons.injEq,
      true_and]
    exact ih fun d hd => h d (by simp [hd])

theorem map_id_of_mem {f : Nat → Nat} : ∀ {t : Str}, (∀ c ∈ t, f c = c) →
    t.map f = t := by
  intro t
  induction t with
  | nil => intro _; rfl
  | cons c r ih =>
    intro h
    simp only [List.map_cons, h c (by simp), List.cons.injEq, true_and]
    exact ih fun d hd => h d (by simp [hd])

theorem wordsRev_words_ok : ∀ (s acc : Str),
    (∀ c ∈ acc, isWs c = false) →
    ∀ w ∈ wordsRev acc s, w ≠ [] ∧ ∀ c ∈ w, isWs c = false := by
  intro s
  induction s with
  | nil =>
    intro acc hacc w hw
    by_cases ha : acc = []
    · simp [wordsRev, ha] at hw
    · simp only [wordsRev, if_neg ha, List.mem_singleton] at hw
      subst hw
      refine ⟨by simpa using ha, fun c hc => hacc c ?_⟩
      simpa using hc
  | cons c r ih =>
    intro acc hacc w hw
    by_cases hwsc : isWs c
    · by_cases ha : acc = []
      · rw [show wordsRev acc (c :: r) = wordsRev [] r by
          simp [wordsRev, hwsc, ha]] at hw
        exact ih [] (by simp) w hw
      · rw [show wordsRev acc (c :: r) = acc.reverse :: wordsRev [] r by
          simp [wordsRev, hwsc, ha]] at hw
        rcases List.mem_cons.mp hw with rfl | hw
        · refine ⟨by simpa using ha, fun d hd => hacc d ?_⟩
          simpa using hd
        · exact ih [] (by simp) w hw
    · rw [show wordsRev acc (c :: r) = wordsRev (c :: acc) r by
        simp [wordsRev, hwsc]] at hw
      refine ih (c :: acc) ?_ w hw
      intro d hd
      rcases List.mem_cons.mp hd with rfl | hd
      · exact Bool.not_eq_true _ ▸ (by simpa using hwsc)
      · exact hacc d hd

theorem wordsRev_chars : ∀ (s acc : Str), ∀ w ∈ wordsRev acc s,
    ∀ c ∈ w, c ∈ acc ∨ c ∈ s := by
  intro s
  induction s with
  | nil =>
    intro acc w hw c hc
    by_cases ha : acc = []
    · simp [wordsRev, ha] at hw
    · simp only [wordsRev, if_neg ha, List.mem_singleton] at hw
      subst hw
      exact Or.inl (by simpa using hc)
  | cons b r ih =>
    intro acc w hw c hc
    by_cases hwsb : isWs b
    · by_cases ha : acc = []
      · rw [show wordsRev acc (b :: r) = wordsRev [] r by
          simp [wordsRev, hwsb, ha]] at hw
        rcases ih [] w hw c hc with h | h
        · simp at h
        · exact Or.inr (by simp [h])
      · rw [show wordsRev acc (b :: r) = acc.reverse :: wordsRev [] r by
          simp [wordsRev, hwsb, ha]] at hw
        rcases List.mem_cons.mp hw with rfl | hw
        · exact Or.inl (by simpa using hc)
        · rcases ih [] w hw c hc with h | h
          · simp at h
          · exact Or.inr (by simp [h])
    · rw [show wordsRev acc (b :: r) = wordsRev (b :: acc) r by
        simp [wordsRev, hwsb]] at hw
      rcases ih (b :: acc) w hw c hc with h | h
      · rcases List.mem_cons.mp h with rfl | h
        · exact Or.inr (by simp)
        · exact Or.inl h
      · exact Or.inr (by simp [h])

theorem wordsRev_append (w : Str) : ∀ (acc s : Str),
    (∀ c ∈ w, isWs c = false) →
    wordsRev acc (w ++ s) = wordsRev (w.reverse ++ acc) s := by
  induction w with
  | nil =>
    intro acc s _
    simp
  | cons c w' ih =>
    intro acc s h
    have hc : isWs c = false := h c (by simp)
    show wordsRev acc (c :: (w' ++ s)) = _
    rw [show wordsRev acc (c :: (w' ++ s)) = wordsRev (c :: acc) (w' ++ s) by
      simp [wordsRev, hc]]
    rw [ih (c :: acc) s fun d hd => h d (by simp [hd])]
    simp

theorem intercalate_sp_cons2 (w x : Str) (ws : List Str) :
    List.intercalate [32] (w :: x :: ws) =
      w ++ (32 :: List.intercalate [32] (x :: ws)) := by
  simp [List.intercalate, List.intersperse]

theorem wordsOf_intercalate : ∀ (ws : List Str),
    (∀ w ∈ ws, w ≠ [] ∧ ∀ c ∈ w, isWs c = false) →
    wordsOf (List.intercalate [32] ws) = ws := by
  intro ws
  induction ws with
  | nil =>
    intro _
    simp [wordsOf, wordsRev, List.intercalate]
  | cons w ws' ih =>
    intro h
    obtain ⟨hne, hnws⟩ := h w (by simp)
    cases ws' with
    | nil =>
      rw [show List.intercalate [32] [w] = w by simp [List.intercalate]]
      unfold wordsOf
      rw [show w = w ++ [] by simp, wordsRev_append w [] [] hnws]
      have hrev : ¬(w.reverse ++ [] = []) := by simpa using hne
      simp [wordsRev, hrev, hne]
    | cons x xs =>
      rw [intercalate_sp_cons2]
      unfold wordsOf
      rw [wordsRev_append w [] _ hnws]
      have hrev : ¬(w.reverse ++ ([] : Str) = []) := by simpa using hne
      rw [show wordsRev (w.reverse ++ [])
          (32 :: List.intercalate [32] (x :: xs)) =
          (w.reverse ++ []).reverse ::
            wordsRev [] (List.intercalate [32] (x :: xs)) by
        simp [wordsRev, hrev, hne, isWs, wsList]]
      rw [show wordsRev [] (List.intercalate [32] (x :: xs)) =
        wordsOf (List.intercalate [32] (x :: xs)) from rfl]
      rw [ih fun v hv => h v (by simp [hv])]
      simp [hne]

theorem mem_intercalate_sp {c : Nat} : ∀ {ws : List Str},
    c ∈ List.intercalate [32] ws → c = 32 ∨ ∃ w ∈ ws, c ∈ w := by
  intro ws
  induction ws with
  | nil =>
    intro h
    simp [List.intercalate] at h
  | cons w ws' ih =>
    intro h
    cases ws' with
    | nil =>
      rw [show List.intercalate [32] [w] = w by simp [List.intercalate]] at h
      exact Or.inr ⟨w, by simp, h⟩
    | cons x xs =>
      rw [intercalate_sp_cons2] at h
      rcases List.mem_append.mp h with h | h
      · exact Or.inr ⟨w, by simp, h⟩
      · rcases List.mem_cons.mp h with rfl | h
        · exact Or.inl rfl
        · rcases ih h with h | ⟨v, hv, hc⟩
          · exact Or.inl h
          · exact Or.inr ⟨v, by simp [hv], hc⟩

/-- Every code point of a `normalizar_texto` output is NFD-inert, has
combining class 0 and is an upper-case fixed point. -/
theorem mem_normalizar_texto {s : Str} {c : Nat}
    (h : c ∈ normalizar_texto s) :
    nfd c = [c] ∧ ccc c = 0 ∧ upperChar c = c := by
  unfold normalizar_texto at h
  by_cases hs : s = []
  · simp [hs] at h
  · rw [if_neg hs] at h
    unfold collapseWs at h
    rcases mem_intercalate_sp h with rfl | ⟨w, hw, hcw⟩
    · exact ⟨by decide, by decide, by decide⟩
    · have hcu := wordsRev_chars _ [] w hw c hcw
      simp only [List.not_mem_nil, false_or] at hcu
      obtain ⟨c0, hc0, rfl⟩ := List.mem_map.mp hcu
      have hfil := List.mem_filter.mp hc0
      have hccc : ccc c0 = 0 := by simpa using hfil.2
      obtain ⟨d, _, hcd⟩ := mem_nfdStr hfil.1
      exact nfd_char_good hcd hccc

/-- C7: `normalizar_texto` is total — the empty string and the `None` input
both yield the empty string and every input produces a value — and
idempotent; its output is upper-case (every code point an upper-case fixed
point), accent-free (NFD-inert, combining class 0), and single-spaced and
trimmed (collapsing whitespace again changes nothing). -/
theorem normalizar_texto_total_idempotent (s : Str) :
    normalizar_texto ([] : Str) = [] ∧
    normalizar_texto_opt none = [] ∧
    normalizar_texto (normalizar_texto s) = normalizar_texto s ∧
    (∀ c ∈ normalizar_texto s,
      upperChar c = c ∧ ccc c = 0 ∧ nfd c = [c]) ∧
    collapseWs (normalizar_texto s) = normalizar_texto s := by
  have hbase : ∀ c ∈ normalizar_texto s,
      nfd c = [c] ∧ ccc c = 0 ∧ upperChar c = c :=
    fun c h => mem_normalizar_texto h
  have hcol : collapseWs (normalizar_texto s) = normalizar_texto s := by
    unfold normalizar_texto
    by_cases hs : s = []
    · simp [hs, collapseWs, wordsOf, wordsRev, List.intercalate]
    · rw [if_neg hs]
      unfold collapseWs
      have hprops : ∀ w ∈ wordsOf (List.map upperChar
          (List.filter (fun c => decide (ccc c = 0)) (nfdStr s))),
          w ≠ [] ∧ ∀ c ∈ w, isWs c = false :=
        wordsRev_words_ok _ [] (by simp)
      rw [wordsOf_intercalate _ hprops]
  refine ⟨rfl, rfl, ?_, fun c h =>
    ⟨(hbase c h).2.2, (hbase c h).2.1, (hbase c h).1⟩, hcol⟩
  by_cases ht : normalizar_texto s = []
  · rw [ht]
    rfl
  · have h1 : nfdStr (normalizar_texto s) = normalizar_texto s :=
      nfdStr_eq_self fun c h => (hbase c h).1
    have h2 : (normalizar_texto s).filter (fun c => ccc c = 0) =
        normalizar_texto s :=
      List.filter_eq_self.mpr fun a ha => by simp [(hbase a ha).2.1]
    have h3 : (normalizar_texto s).map upperChar = normalizar_texto s :=
      map_id_of_mem fun c h => (hbase c h).2.2
    conv_lhs => rw [normalizar_texto]
    rw [if_neg ht, h1, h2, h3, hcol]

/-! Lemmas for claim C10 (the builders leave every pre-existing heap cell —
in particular the module-level base tables — unchanged, and the result is a
function of the base contents and the context alone). -/

theorem hWrite_length {α : Type} :
    ∀ (h : List α) (a : Nat) (f : α → α), (hWrite h a f).length = h.length := by
  intro h
  induction h with
  | nil => intro a f; rfl
  | cons x r ih =>
    intro a f
    cases a with
    | zero => rfl
    | succ n => simp [hWrite, ih]

theorem get?_hWrite_ne {α : Type} :
    ∀ (h : List α) (a b : Nat) (f : α → α), a ≠ b →
      (hWrite h b f).get? a = h.get? a := by
  intro h
  induction h with
  | nil => intro a b f _; rfl
  | cons x r ih =>
    intro a b f hne
    cases b with
    | zero =>
      cases a with
      | zero => exact absurd rfl hne
      | succ m => rfl
    | succ n =>
      cases a with
      | zero => rfl
      | succ m =>
        simp only [hWrite, List.get?_cons_succ]
        exact ih m n f fun e => hne (by rw [e])

theorem hRead_hWrite_same {α : Type} :
    ∀ (h : List α) (a : Nat) (f : α → α) (d : α), a < h.length →
      hRead (hWrite h a f) a d = f (hRead h a d) := by
  intro h
  induction h with
  | nil =>
    intro a f d ha
    simp at ha
  | cons x r ih =>
    intro a f d ha
    cases a with
    | zero => rfl
    | succ n =>
      simp only [hWrite, hRead, List.get?_cons_succ]
      exact ih n f d (by simpa using ha)

theorem hWrite_append_last {α : Type} :
    ∀ (h : List α) (x : α) (f : α → α),
      hWrite (h ++ [x]) h.length f = h ++ [f x] := by
  intro h
  induction h with
  | nil => intro x f; rfl
  | cons y r ih =>
    intro x f
    simp [hWrite, ih]

/-- Push a branch on the contents of the freshly-allocated cell through the
append. -/
theorem ite_push_append {α : Type} (h0 : List α) (c : Prop) [Decidable c]
    (x y : α) :
    (if c then h0 ++ [x] else h0 ++ [y]) = h0 ++ [if c then x else y] := by
  split_ifs <;> rfl

/-- A conditional write to the single freshly-allocated cell, pushed into the
cell. -/
theorem step_if {α : Type} (h0 : List α) (x : α) (c : Prop) [Decidable c]
    (f : α → α) :
    (if c then hWrite (h0 ++ [x]) h0.length f else h0 ++ [x]) =
      h0 ++ [if c then f x else x] := by
  split_ifs <;> simp [hWrite_append_last]

/-- A two-branch write to the single freshly-allocated cell, pushed into the
cell. -/
theorem step_if2 {α : Type} (h0 : List α) (x : α) (c : Prop) [Decidable c]
    (f g2 : α → α) :
    (if c then hWrite (h0 ++ [x]) h0.length f
     else hWrite (h0 ++ [x]) h0.length g2) =
      h0 ++ [if c then f x else g2 x] := by
  split_ifs <;> simp [hWrite_append_last]

/-- `montar_base_epi_radios` on the heap: it allocates a copy of the global
dict and mutates only the copy, so the final heap is the initial heap with
exactly one new cell, holding precisely the pure builder's result. -/
theorem radios_heap_spec (ctx : Ctx) (g : Nat)
    (h : List (List ((Str × Str) × Str)))
    (hg : hRead h g [] = EPI_RADIOS_BASE) :
    (montar_base_epi_radios_heap ctx g h).1 =
      h ++ [montar_base_epi_radios ctx] ∧
    (montar_base_epi_radios_heap ctx g h).2 = h.length := by
  refine ⟨?_, rfl⟩
  unfold montar_base_epi_radios_heap montar_base_epi_radios
  rw [hg]
  simp only [ite_push_append, step_if, step_if2, hWrite_append_last]

/-- `montar_base_qpt` on the heap: same shape. -/
theorem qpt_heap_spec (ctx : Ctx) (g : Nat)
    (h : List (List ((Str × Str) × Str)))
    (hg : hRead h g [] = QPT_BASE) :
    (montar_base_qpt_heap ctx g h).1 = h ++ [montar_base_qpt ctx] ∧
    (montar_base_qpt_heap ctx g h).2 = h.length := by
  refine ⟨?_, rfl⟩
  unfold montar_base_qpt_heap montar_base_qpt
  rw [hg]
  simp only [ite_push_append, step_if, step_if2, hWrite_append_last]

/-- `montar_base_apn1` on the heap: it reads no global table at all. -/
theorem apn1_heap_spec (ctx : Ctx) (h : List (List (Str × Str))) :
    (montar_base_apn1_heap ctx h).1 = h ++ [montar_base_apn1 ctx] ∧
    (montar_base_apn1_heap ctx h).2 = h.length := by
  refine ⟨?_, rfl⟩
  unfold montar_base_apn1_heap montar_base_apn1
  simp only [ite_push_append, step_if, step_if2, hWrite_append_last]

theorem mem_dictSet_elim {α β : Type} [DecidableEq α] {d : List (α × β)}
    {k : α} {v : β} {p : α × β} (h : p ∈ dictSet d k v) :
    p = (k, v) ∨ p ∈ d := by
  induction d with
  | nil => simpa [dictSet] using h
  | cons q r ih =>
    by_cases hq : q.1 = k
    · rw [dictSet, if_pos hq] at h
      rcases List.mem_cons.mp h with rfl | h
      · exact Or.inl (by rw [hq])
      · exact Or.inr (List.mem_cons_of_mem _ h)
    · rw [dictSet, if_neg hq] at h
      rcases List.mem_cons.mp h with rfl | h
      · exact Or.inr (List.mem_cons_self _ _)
      · rcases ih h with h | h
        · exact Or.inl h
        · exact Or.inr (List.mem_cons_of_mem _ h)

theorem mem_map_snd_dictSet {α β : Type} [DecidableEq α]
    {d : List (α × β)} {k : α} {v x : β}
    (h : x ∈ (dictSet d k v).map Prod.snd) :
    x = v ∨ x ∈ d.map Prod.snd := by
  obtain ⟨p, hp, rfl⟩ := List.mem_map.mp h
  rcases mem_dictSet_elim hp with rfl | hp
  · exact Or.inl rfl
  · exact Or.inr (List.mem_map_of_mem _ hp)

theorem nodup_snd_dictSet {α β : Type} [DecidableEq α] {d : List (α × β)}
    {k : α} {v : β} (hn : (d.map Prod.snd).Nodup)
    (hv : v ∉ d.map Prod.snd) :
    ((dictSet d k v).map Prod.snd).Nodup := by
  induction d with
  | nil => simp [dictSet]
  | cons q r ih =>
    simp only [List.map_cons, List.nodup_cons] at hn
    simp only [List.map_cons, List.mem_cons, not_or] at hv
    by_cases hq : q.1 = k
    · rw [dictSet, if_pos hq]
      simp only [List.map_cons, List.nodup_cons]
      exact ⟨fun hc => hv.2 hc, hn.2⟩
    · rw [dictSet, if_neg hq]
      simp only [List.map_cons, List.nodup_cons]
      refine ⟨fun hc => ?_, ih hn.2 hv.2⟩
      rcases mem_map_snd_dictSet hc with rfl | hc
      · exact hv.1 rfl
      · exact hn.1 hc

theorem snd_mem_of_alookup {α β : Type} [DecidableEq α] {d : List (α × β)}
    {k : α} {v : β} (h : alookup k d = some v) : v ∈ d.map Prod.snd :=
  List.mem_map_of_mem _ (alookup_mem h)

theorem catContents_congr {h1 h2 : List (List Str)} {g : List (Str × Nat)}
    (hr : ∀ p ∈ g, h2.get? p.2 = h1.get? p.2) :
    catContents h2 g = catContents h1 g :=
  List.map_congr_left fun p hp => by
    unfold hRead
    rw [hr p hp]

theorem alookup_catContents (h : List (List Str)) (g : List (Str × Nat))
    (k : Str) :
    alookup k (catContents h g) = (alookup k g).map (fun a => hRead h a []) := by
  induction g with
  | nil => rfl
  | cons p r ih =>
    by_cases hp : p.1 = k
    · simp [catContents, alookup, hp]
    · simp only [catContents, List.map_cons, alookup, if_neg hp]
      simpa [catContents] using ih

/-- Mutating the cell a key points at is, at the contents level, a dict
update at that key (the freshness invariant rules out aliasing). -/
theorem contents_write (h : List (List Str)) (φ : List Str → List Str) :
    ∀ (d : List (Str × Nat)) (k : Str) (a : Nat),
      alookup k d = some a → a < h.length → (d.map Prod.snd).Nodup →
      catContents (hWrite h a φ) d =
        dictSet (catContents h d) k (φ (hRead h a [])) := by
  intro d
  induction d with
  | nil =>
    intro k a ha
    simp [alookup] at ha
  | cons p r ih =>
    intro k a ha hb hn
    simp only [List.map_cons, List.nodup_cons] at hn
    by_cases hk : p.1 = k
    · rw [alookup, if_pos hk] at ha
      injection ha with ha
      subst ha
      simp only [catContents, List.map_cons, dictSet, if_pos hk]
      congr 1
      · rw [hRead_hWrite_same h p.2 φ [] hb]
      · refine List.map_congr_left fun q hq => ?_
        have hne : q.2 ≠ p.2 := fun e =>
          hn.1 (e ▸ List.mem_map_of_mem _ hq)
        unfold hRead
        rw [get?_hWrite_ne h q.2 p.2 φ hne]
    · rw [alookup, if_neg hk] at ha
      simp only [catContents, List.map_cons, dictSet, if_neg hk]
      congr 1
      · have hne : p.2 ≠ a := fun e =>
          hn.1 (e ▸ snd_mem_of_alookup ha)
        unfold hRead
        rw [get?_hWrite_ne h p.2 a φ hne]
      · simpa [catContents] using ih k a ha hb hn.2

theorem contents_alloc_dictSet (h : List (List Str)) (v : List Str) :
    ∀ (d : List (Str × Nat)) (k : Str), (∀ p ∈ d, p.2 < h.length) →
      catContents (h ++ [v]) (dictSet d k h.length) =
        dictSet (catContents h d) k v := by
  intro d
  induction d with
  | nil =>
    intro k _
    unfold catContents dictSet
    simp only [List.map_cons, List.map_nil]
    congr 1
    unfold hRead
    rw [List.get?_concat_length]
    rfl
  | cons p r ih =>
    intro k hb
    by_cases hk : p.1 = k
    · simp only [dictSet, if_pos hk, catContents, List.map_cons]
      congr 1
      · unfold hRead
        rw [List.get?_concat_length]
        rfl
      · refine List.map_congr_left fun q hq => ?_
        unfold hRead
        rw [List.get?_append (hb q (by simp [hq]))]
    · simp only [dictSet, if_neg hk, catContents, List.map_cons]
      congr 1
      · unfold hRead
        rw [List.get?_append (hb p (by simp))]
      · simpa [catContents] using ih k fun q hq => hb q (by simp [hq])

theorem contents_alloc_append (h : List (List Str)) (v : List Str)
    (d : List (Str × Nat)) (k : Str) (hb : ∀ p ∈ d, p.2 < h.length) :
    catContents (h ++ [v]) (d ++ [(k, h.length)]) =
      catContents h d ++ [(k, v)] := by
  unfold catContents
  rw [List.map_append]
  congr 1
  · exact List.map_congr_left fun q hq => by
      unfold hRead
      rw [List.get?_append (hb q hq)]
  · simp only [List.map_cons, List.map_nil]
    congr 1
    unfold hRead
    rw [List.get?_concat_length]
    rfl

/-- One category-builder mutation preserves the heap invariant and acts on
the contents exactly as the pure dict operation. -/
theorem runCatStepHeap_ok (n0 : Nat) (h0 : List (List Str)) (st : CatSt)
    (stp : CatStep) (hinv : CatInv n0 h0 st) :
    CatInv n0 h0 (runCatStepHeap st stp) ∧
    catContents (runCatStepHeap st stp).1 (runCatStepHeap st stp).2 =
      runCatStepPure (catContents st.1 st.2) stp := by
  obtain ⟨p1, p2, p3, p4⟩ := hinv
  have hallocInv : ∀ (v : List Str) (k : Str),
      CatInv n0 h0 (st.1 ++ [v], dictSet st.2 k st.1.length) := by
    intro v k
    refine ⟨fun a ha => by
        rw [List.get?_append (lt_of_lt_of_le ha p2)]
        exact p1 a ha,
      le_trans p2 (by simp), fun q hq => ?_, ?_⟩
    · rcases mem_dictSet_elim hq with rfl | hq
      · exact ⟨p2, by simp⟩
      · obtain ⟨hq1, hq2⟩ := p3 q hq
        exact ⟨hq1, by simp; omega⟩
    · refine nodup_snd_dictSet p4 fun hc => ?_
      obtain ⟨q, hq, he⟩ := List.mem_map.mp hc
      exact absurd he (by have := (p3 q hq).2; omega)
  have happInv : ∀ (v : List Str) (k : Str),
      CatInv n0 h0 (st.1 ++ [v], st.2 ++ [(k, st.1.length)]) := by
    intro v k
    refine ⟨fun a ha => by
        rw [List.get?_append (lt_of_lt_of_le ha p2)]
        exact p1 a ha,
      le_trans p2 (by simp), fun q hq => ?_, ?_⟩
    · rcases List.mem_append.mp hq with hq | hq
      · obtain ⟨hq1, hq2⟩ := p3 q hq
        exact ⟨hq1, by simp; omega⟩
      · simp only [List.mem_singleton] at hq
        subst hq
        exact ⟨p2, by simp⟩
    · simp only [List.map_append, List.map_cons, List.map_nil]
      rw [List.nodup_append]
      refine ⟨p4, by simp, fun x hx hx2 => ?_⟩
      simp only [List.mem_singleton] at hx2
      obtain ⟨q, hq, rfl⟩ := List.mem_map.mp hx
      have := (p3 q hq).2
      omega
  have hwriteInv : ∀ (φ : List Str → List Str) (a : Nat), n0 ≤ a →
      a < st.1.length → CatInv n0 h0 (hWrite st.1 a φ, st.2) := by
    intro φ a hge hb
    refine ⟨fun b hbn => ?_, by rw [hWrite_length]; exact p2,
      fun q hq => by rw [hWrite_length]; exact p3 q hq, p4⟩
    rw [get?_hWrite_ne st.1 b a φ (by omega)]
    exact p1 b hbn
  cases stp with
  | assignK k v =>
    exact ⟨hallocInv v k,
      contents_alloc_dictSet st.1 v st.2 k fun q hq => (p3 q hq).2⟩
  | updateK k xs =>
    cases ha : alookup k st.2 with
    | some a =>
      have hred : runCatStepHeap st (CatStep.updateK k xs) =
          (hWrite st.1 a (fun s => setUnion s xs), st.2) := by
        simp [runCatStepHeap, ha]
      obtain ⟨hge, hb⟩ := p3 (k, a) (alookup_mem ha)
      rw [hred]
      refine ⟨hwriteInv _ a hge hb, ?_⟩
      rw [contents_write st.1 _ st.2 k a ha hb p4]
      show _ = dictUpdateSet (catContents st.1 st.2) k xs
      rw [dictUpdateSet, alookup_catContents, ha]
      rfl
    | none =>
      have hred : runCatStepHeap st (CatStep.updateK k xs) =
          (st.1 ++ [setUnion [] xs], st.2 ++ [(k, st.1.length)]) := by
        simp [runCatStepHeap, ha]
      rw [hred]
      refine ⟨happInv _ k, ?_⟩
      rw [contents_alloc_append st.1 _ st.2 k fun q hq => (p3 q hq).2]
      show _ = dictUpdateSet (catContents st.1 st.2) k xs
      rw [dictUpdateSet, alookup_catContents, ha]
      rfl
  | addK k x =>
    cases ha : alookup k st.2 with
    | some a =>
      have hred : runCatStepHeap st (CatStep.addK k x) =
          (hWrite st.1 a (fun s => setAdd s x), st.2) := by
        simp [runCatStepHeap, ha]
      obtain ⟨hge, hb⟩ := p3 (k, a) (alookup_mem ha)
      rw [hred]
      refine ⟨hwriteInv _ a hge hb, ?_⟩
      rw [contents_write st.1 _ st.2 k a ha hb p4]
      show _ = dictAddSet (catContents st.1 st.2) k x
      rw [dictAddSet, alookup_catContents, ha]
      rfl
    | none =>
      have hred : runCatStepHeap st (CatStep.addK k x) =
          (st.1 ++ [setAdd [] x], st.2 ++ [(k, st.1.length)]) := by
        simp [runCatStepHeap, ha]
      rw [hred]
      refine ⟨happInv _ k, ?_⟩
      rw [contents_alloc_append st.1 _ st.2 k fun q hq => (p3 q hq).2]
      show _ = dictAddSet (catContents st.1 st.2) k x
      rw [dictAddSet, alookup_catContents, ha]
      rfl

theorem foldl_cat_ok (steps : List CatStep) :
    ∀ (n0 : Nat) (h0 : List (List Str)) (st : CatSt), CatInv n0 h0 st →
    CatInv n0 h0 (steps.foldl runCatStepHeap st) ∧
    catContents (steps.foldl runCatStepHeap st).1
        (steps.foldl runCatStepHeap st).2 =
      steps.foldl runCatStepPure (catContents st.1 st.2) := by
  induction steps with
  | nil =>
    intro n0 h0 st hinv
    exact ⟨hinv, rfl⟩
  | cons stp rest ih =>
    intro n0 h0 st hinv
    obtain ⟨hinv2, hc2⟩ := runCatStepHeap_ok n0 h0 st stp hinv
    obtain ⟨hinv3, hc3⟩ := ih n0 h0 _ hinv2
    refine ⟨hinv3, ?_⟩
    rw [List.foldl_cons, List.foldl_cons, hc3, hc2]

theorem copy_fold_ok (g : List (Str × Nat)) :
    ∀ (n0 : Nat) (h0 : List (List Str)) (st : CatSt), CatInv n0 h0 st →
      (∀ p ∈ g, p.2 < n0) →
    CatInv n0 h0 (g.foldl copyStep st) ∧
    catContents (g.foldl copyStep st).1 (g.foldl copyStep st).2 =
      catContents st.1 st.2 ++ catContents h0 g := by
  induction g with
  | nil =>
    intro n0 h0 st hinv _
    exact ⟨hinv, by simp [catContents]⟩
  | cons p g' ih =>
    intro n0 h0 st hinv hg
    obtain ⟨p1, p2, p3, p4⟩ := hinv
    have hpb : p.2 < n0 := hg p (by simp)
    have hinv2 : CatInv n0 h0 (copyStep st p) := by
      refine ⟨fun a ha => by
          rw [copyStep, List.get?_append (lt_of_lt_of_le ha p2)]
          exact p1 a ha,
        le_trans p2 (by simp [copyStep]), fun q hq => ?_, ?_⟩
      · rw [copyStep] at hq
        rcases List.mem_append.mp hq with hq | hq
        · obtain ⟨hq1, hq2⟩ := p3 q hq
          refine ⟨hq1, ?_⟩
          simp [copyStep]
          omega
        · simp only [List.mem_singleton] at hq
          subst hq
          refine ⟨p2, ?_⟩
          simp [copyStep]
      · rw [copyStep]
        simp only [List.map_append, List.map_cons, List.map_nil]
        rw [List.nodup_append]
        refine ⟨p4, by simp, fun y hy hy2 => ?_⟩
        simp only [List.mem_singleton] at hy2
        obtain ⟨q, hq, rfl⟩ := List.mem_map.mp hy
        have := (p3 q hq).2
        omega
    have hc2 : catContents (copyStep st p).1 (copyStep st p).2 =
        catContents st.1 st.2 ++ [(p.1, hRead h0 p.2 [])] := by
      rw [copyStep]
      have := contents_alloc_append st.1 (hRead st.1 p.2 []) st.2 p.1
        fun q hq => (p3 q hq).2
      rw [this]
      have hsame : hRead st.1 p.2 [] = hRead h0 p.2 [] := by
        unfold hRead
        rw [p1 p.2 hpb]
      rw [hsame]
    obtain ⟨hinv3, hc3⟩ := ih n0 h0 _ hinv2 fun q hq => hg q (by simp [hq])
    refine ⟨hinv3, ?_⟩
    rw [List.foldl_cons, hc3, hc2]
    simp [catContents]

theorem copyCats_ok (g : List (Str × Nat)) (h : List (List Str))
    (hg : ∀ p ∈ g, p.2 < h.length) :
    CatInv h.length h (copyCats h g) ∧
    catContents (copyCats h g).1 (copyCats h g).2 = catContents h g := by
  have h0 : CatInv h.length h (h, ([] : List (Str × Nat))) :=
    ⟨fun a _ => rfl, le_refl _, by simp, by simp⟩
  obtain ⟨hinv, hc⟩ := copy_fold_ok g h.length h (h, []) h0 hg
  exact ⟨hinv, by simpa [catContents] using hc⟩

theorem foldl_ite_block (c : Prop) [Decidable c] (l : List CatStep)
    (d : List (Str × List Str)) :
    List.foldl runCatStepPure d (if c then l else []) =
      if c then List.foldl runCatStepPure d l else d := by
  split_ifs <;> rfl

/-- The mutation sequence `catProgram`, interpreted over plain dicts, is
exactly the pure builder. -/
theorem catProgram_pure (ctx : Ctx) :
    (catProgram ctx).foldl runCatStepPure EPIS_CAT_BASE =
      montar_base_epis_cat ctx := by
  unfold catProgram montar_base_epis_cat
  simp only [List.foldl_append, foldl_ite_block, List.foldl_cons,
    List.foldl_nil]
  rfl

/-- `montar_base_epis_cat` on the heap: every pre-existing cell (the global
dict's sets in particular) is unchanged, and the contents of the resulting
dict are exactly the pure builder's result. -/
theorem epis_cat_heap_spec (ctx : Ctx) (g : List (Str × Nat))
    (h : List (List Str)) (hg : ∀ p ∈ g, p.2 < h.length)
    (hcont : catContents h g = EPIS_CAT_BASE) :
    (∀ a, a < h.length →
      (montar_base_epis_cat_heap ctx g h).1.get? a = h.get? a) ∧
    catContents (montar_base_epis_cat_heap ctx g h).1
        (montar_base_epis_cat_heap ctx g h).2 =
      montar_base_epis_cat ctx := by
  obtain ⟨hinv0, hc0⟩ := copyCats_ok g h hg
  obtain ⟨hinv, hc⟩ := foldl_cat_ok (catProgram ctx) h.length h _ hinv0
  unfold montar_base_epis_cat_heap
  refine ⟨fun a ha => hinv.1 a ha, ?_⟩
  rw [hc, hc0, hcont, catProgram_pure]

/-- C10: the four table builders leave the module-level base tables
untouched.  Each builder copies the table it reads (`dict(...)` / the
`set(itens)` comprehension) into fresh heap cells and mutates only the
copies: for the two answer-dict builders and the APN-1 builder the final heap
is exactly the initial heap plus one new cell holding the pure result, and
for the categorized-equipment builder every pre-existing cell — the
`EPIS_CAT_BASE` dict and each category's set object among them — is
unchanged, while the fresh dict's contents equal the pure builder's result.
Since the result is a function of the base contents and the context alone,
successive calls with different contexts are independent and leak no
state. -/
theorem builders_frame (ctx : Ctx) :
    (∀ (g : Nat) (h : List (List ((Str × Str) × Str))),
      hRead h g [] = EPI_RADIOS_BASE →
      (montar_base_epi_radios_heap ctx g h).1 =
        h ++ [montar_base_epi_radios ctx]) ∧
    (∀ (g : Nat) (h : List (List ((Str × Str) × Str))),
      hRead h g [] = QPT_BASE →
      (montar_base_qpt_heap ctx g h).1 = h ++ [montar_base_qpt ctx]) ∧
    (∀ (h : List (List (Str × Str))),
      (montar_base_apn1_heap ctx h).1 = h ++ [montar_base_apn1 ctx]) ∧
    (∀ (g : List (Str × Nat)) (h : List (List Str)),
      (∀ p ∈ g, p.2 < h.length) → catContents h g = EPIS_CAT_BASE →
      (∀ a, a < h.length →
        (montar_base_epis_cat_heap ctx g h).1.get? a = h.get? a) ∧
      catContents (montar_base_epis_cat_heap ctx g h).1
          (montar_base_epis_cat_heap ctx g h).2 =
        montar_base_epis_cat ctx) :=
  ⟨fun g h hg => (radios_heap_spec ctx g h hg).1,
   fun g h hg => (qpt_heap_spec ctx g h hg).1,
   fun h => (apn1_heap_spec ctx h).1,
   fun g h hg hc => epis_cat_heap_spec ctx g h hg hc⟩

/-- C10 witness: the frame theorem at a concrete context (flame and height
flags on) over heaps holding exactly the module tables. -/
theorem builders_frame_witness :
    (montar_base_epi_radios_heap
      ⟨[], false, true, false, false, true, false, false, false, false,
       false, false, false, false, false, false, false, false, false, false⟩
      0 [EPI_RADIOS_BASE]).1 =
      [EPI_RADIOS_BASE] ++ [montar_base_epi_radios
        ⟨[], false, true, false, false, true, false, false, false, false,
         false, false, false, false, false, false, false, false, false,
         false⟩] ∧
    (montar_base_qpt_heap
      ⟨[], false, true, false, false, true, false, false, false, false,
       false, false, false, false, false, false, false, false, false, false⟩
      0 [QPT_BASE]).1 =
      [QPT_BASE] ++ [montar_base_qpt
        ⟨[], false, true, false, false, true, false, false, false, false,
         false, false, false, false, false, false, false, false, false,
         false⟩] ∧
    (montar_base_epis_cat_heap
      ⟨[], false, true, false, false, true, false, false, false, false,
       false, false, false, false, false, false, false, false, false, false⟩
      [(strOf "Luvas", 0), (strOf "Proteção Respiratória", 1),
       (strOf "Vestimentas", 2), (strOf "Óculos", 3)]
      [[strOf "LUVA DE PROTEÇÃO CONTRA IMPACTOS MODELO II (3, 4, 3, 3, 'C', 'P')"],
       [strOf "NÃO APLICÁVEL"],
       [strOf "DUPLA PROTEÇÃO AUDITIVA",
        strOf "EPI´s OBRIGATÓRIOS (CAPACETE, BOTA, PROT. AURIC. E UNIFORME)"],
       [strOf "ÓCULOS AMPLA VISÃO", strOf "PROTETOR FACIAL"]]).1.get? 1 =
      some [strOf "NÃO APLICÁVEL"] := by
  refine ⟨(builders_frame _).1 0 [EPI_RADIOS_BASE] rfl,
    (builders_frame _).2.1 0 [QPT_BASE] rfl, ?_⟩
  rw [((builders_frame _).2.2.2
    [(strOf "Luvas", 0), (strOf "Proteção Respiratória", 1),
     (strOf "Vestimentas", 2), (strOf "Óculos", 3)]
    [[strOf "LUVA DE PROTEÇÃO CONTRA IMPACTOS MODELO II (3, 4, 3, 3, 'C', 'P')"],
     [strOf "NÃO APLICÁVEL"],
     [strOf "DUPLA PROTEÇÃO AUDITIVA",
      strOf "EPI´s OBRIGATÓRIOS (CAPACETE, BOTA, PROT. AURIC. E UNIFORME)"],
     [strOf "ÓCULOS AMPLA VISÃO", strOf "PROTETOR FACIAL"]]
    (by decide) (by decide)).1 1 (by decide)]
  decide

end Aplat
